import Mathlib

/-!
# tacacs4zitadel: session and policy layer

Shallow embedding of `tacacs-server/zitadel/client.go` (credential cache and
authorization policy) and `tacacs-server/tacacs_tacquito/{handlers,server}.go`
(session table, request handlers, accounting records).

Conventions of the embedding

* Go strings are Lean `String`s (sequences of runes; Go strings that are not
  valid UTF-8 are outside the model).
* Go `int` results are `Int`.
* An instant (`time.Time`) is an `Int` count of nanoseconds on one timeline;
  `Before` is `<`, `After` is `>`, `Add d` is `+ d`.  A `time.Duration` is an
  `int64` count of nanoseconds, so arithmetic on durations wraps.
* Library behaviour that is not code of this repository (the Unicode case
  table beyond ASCII, the identity provider's HTTP answers, the JWT decoder)
  is passed in as data.
-/

/-! ## Go standard library: `unicode`, `strings`, `fmt` -/

namespace unicode

/-- Go `unicode.ToLower`: the ASCII branch is the library's own fast path
(`'A'..'Z'` shifted by `'a' - 'A'`, every other ASCII rune unchanged); runes
above `MaxASCII` are looked up in the Unicode case table `tbl`. -/
def ToLower (tbl : Char → Char) (r : Char) : Char :=
  if r.toNat ≤ 127 then
    if 65 ≤ r.toNat ∧ r.toNat ≤ 90 then Char.ofNat (r.toNat + 32) else r
  else tbl r

end unicode

namespace strings

/-- Go `strings.ToLower`: every rune mapped through `unicode.ToLower`. -/
def ToLower (tbl : Char → Char) (s : String) : String :=
  ⟨s.data.map (unicode.ToLower tbl)⟩

/-- Go `strings.HasPrefix s p`: `s` begins with `p`. -/
def HasPrefix (s p : String) : Bool :=
  p.data.isPrefixOf s.data

end strings

namespace zitadel

/-! ## `zitadel/client.go`: authorization policy -/

/-- Go `Client.GetPrivilegeLevel`: the `for … range roles` loop with its
`switch strings.ToLower(role)`; a role that hits no `case` falls through to
the next iteration, and the loop falling off the end returns 0. -/
def GetPrivilegeLevel (tbl : Char → Char) : List String → Int
  | [] => 0
  | role :: rest =>
    let r := strings.ToLower tbl role
    if r = "network-admin" ∨ r = "admin" ∨ r = "zitadel.admin" then 15
    else if r = "network-user" ∨ r = "user" ∨ r = "zitadel.user" then 1
    else if r = "network-readonly" ∨ r = "readonly" ∨ r = "viewer" then 0
    else GetPrivilegeLevel tbl rest

/-- The `readOnlyCommands` slice literal of `Client.IsAuthorized`. -/
def readOnlyCommands : List String :=
  ["show", "ping", "traceroute", "telnet", "ssh"]

/-- Go `Client.IsAuthorized`: three successive threshold tests on the privilege
level; the last one guards the scan of `readOnlyCommands`. -/
def IsAuthorized (tbl : Char → Char) (roles : List String) (command : String) : Bool :=
  let privilegeLevel := GetPrivilegeLevel tbl roles
  if privilegeLevel ≥ 15 then true
  else if privilegeLevel ≥ 1 then true
  else if privilegeLevel ≥ 0 ∧
      readOnlyCommands.any (fun cmd => strings.HasPrefix (strings.ToLower tbl command) cmd) then true
  else false

end zitadel

/-! ## Go runtime: maps, `time` -/

/-- A Go `map[string]V`: finitely many entries with pairwise distinct keys.
`m[k]` is `AList.lookup`, `m[k] = v` is `AList.insert`, `delete(m, k)` is
`AList.erase`. -/
abbrev GoMap (V : Type) : Type := AList (fun _ : String => V)

/-- The order in which one `for … range m` loop visits the entries of a Go map.
The language leaves it unspecified and it may differ from loop to loop, so each
loop takes its own list of `choices`: the head of `choices` rotates the entries
not yet visited and the loop visits the one that comes to the front.  Every
visiting order arises from some `choices`. -/
def rangeOrder {α : Type} : List Nat → List α → List α
  | [], l => l
  | c :: cs, l =>
    match l.rotate c with
    | [] => []
    | x :: rest => x :: rangeOrder cs rest

namespace time

/-- Wrap-around of an integer into the range of Go's `int64`. -/
def int64 (x : Int) : Int := (x + 2 ^ 63) % 2 ^ 64 - 2 ^ 63

/-- Go `time.Second`, in nanoseconds. -/
def Second : Int := 1000000000

/-- Go `time.Duration(n) * time.Second` for an `int` `n`: an `int64` product. -/
def seconds (n : Int) : Int := int64 (int64 n * Second)

/-- Go `Time.Unix()`: whole seconds of the instant (rounded down). -/
def Unix (t : Int) : Int := t / 1000000000

end time

namespace config

/-- The integer settings of `config.Config` read by the core. -/
structure Config where
  SessionTimeout : Int
  TokenCacheTimeout : Int
  MaxConcurrentSessions : Int
deriving DecidableEq, Repr

end config

namespace auth

/-- Go struct `auth.UserInfo`. -/
structure UserInfo where
  Username : String
  Roles : List String
  Groups : List String
deriving DecidableEq, Repr

end auth

namespace zitadel

/-! ## `zitadel/client.go`: credential cache -/

/-- Go struct `zitadel.TokenResponse`. -/
structure TokenResponse where
  AccessToken : String
  TokenType : String
  ExpiresIn : Int
  RefreshToken : String
  Scope : String
deriving DecidableEq, Repr

/-- Go struct `zitadel.CachedToken`. -/
structure CachedToken where
  Token : TokenResponse
  Expiry : Int
  Roles : List String
deriving DecidableEq, Repr

/-- Go struct `zitadel.ZitadelUserInfo`. -/
structure ZitadelUserInfo where
  Sub : String
  PreferredUsername : String
  Name : String
  Email : String
  EmailVerified : Bool
  Roles : List String
  Groups : List String
deriving DecidableEq, Repr

/-- What `extractRolesFromToken` reads from the claims of a decoded JWT:
`projectRoles` is the key list of `claims["urn:zitadel:iam:org:project:roles"]`
when that claim is a JSON object (in the order its `range` loop visits them),
`roles` is `claims["roles"]` when that claim is an array (`some s` for a string
element, `none` for any other element). -/
structure MapClaims where
  projectRoles : Option (List String)
  roles : Option (List (Option String))
deriving DecidableEq, Repr

/-- The answers of the outside world during one call of `AuthenticateUser`:
the outcome of the password-grant request (`authenticateWithPassword`), of the
userinfo request (`getUserInfo`), and of `jwt.Parser.ParseUnverified`.  An
`error` carries the Go error's message. -/
structure Provider where
  authenticateWithPassword : String → String → Except String TokenResponse
  getUserInfo : String → Except String ZitadelUserInfo
  ParseUnverified : String → Option MapClaims

/-- A request sent to the identity provider. -/
inductive ProviderCall where
  | authenticateWithPassword (username password : String)
  | getUserInfo (accessToken : String)
deriving DecidableEq, Repr

/-- Go `Client.extractRolesFromToken`: the keys of the project-roles claim, then the
string elements of the `roles` claim; empty when the token does not parse. -/
def extractRolesFromToken (p : Provider) (accessToken : String) : List String :=
  match p.ParseUnverified accessToken with
  | none => []
  | some claims =>
    let roles : List String := []
    let roles := roles ++ (claims.projectRoles.getD [])
    let roles := roles ++ (claims.roles.getD []).filterMap id
    roles

/-- The `cacheKey` of `AuthenticateUser`: `fmt.Sprintf("%s:%s", username, password)`. -/
def cacheKey (username password : String) : String :=
  username ++ ":" ++ password

/-- What one call of `AuthenticateUser` leaves behind: the returned pair
(`ok info` for `(info, nil)`, `error msg` for `(nil, err)`), the token cache
afterwards, and the requests sent to the identity provider, oldest first. -/
structure AuthResult where
  result : Except String auth.UserInfo
  tokenCache : GoMap CachedToken
  calls : List ProviderCall

/-- Go `Client.AuthenticateUser`.  `now₁` is the clock reading of the cache check
(`time.Now().Before(cached.Expiry)`), `now₂` the later reading taken when the
new entry is stored (`time.Now().Add(…)`). -/
def AuthenticateUser (cfg : config.Config) (p : Provider) (now₁ now₂ : Int)
    (tokenCache : GoMap CachedToken) (username password : String) : AuthResult :=
  let cacheKey := cacheKey username password
  match (tokenCache.lookup cacheKey).filter (fun cached => decide (now₁ < cached.Expiry)) with
  | some cached =>
    { result := .ok { Username := username, Roles := cached.Roles, Groups := [] }
      tokenCache := tokenCache
      calls := [] }
  | none =>
    match p.authenticateWithPassword username password with
    | .error err =>
      { result := .error ("authentication failed: " ++ err)
        tokenCache := tokenCache
        calls := [.authenticateWithPassword username password] }
    | .ok token =>
      match p.getUserInfo token.AccessToken with
      | .error err =>
        { result := .error ("failed to get user info: " ++ err)
          tokenCache := tokenCache
          calls := [.authenticateWithPassword username password, .getUserInfo token.AccessToken] }
      | .ok userInfo =>
        let roles := extractRolesFromToken p token.AccessToken
        let roles := if roles.length = 0 then userInfo.Roles else roles
        { result := .ok { Username := userInfo.PreferredUsername, Roles := roles,
                          Groups := userInfo.Groups }
          tokenCache := tokenCache.insert cacheKey
            { Token := token
              Expiry := now₂ + time.seconds cfg.TokenCacheTimeout
              Roles := roles }
          calls := [.authenticateWithPassword username password, .getUserInfo token.AccessToken] }

/-- Go `Client.CleanupCache`: the `range` loop over the cache, visiting the
entries in the order given by `order`, deleting the visited key when `now` is
after the entry's `Expiry`. -/
def CleanupCache (now : Int) (order : List Nat) (tokenCache : GoMap CachedToken) :
    GoMap CachedToken :=
  (rangeOrder order tokenCache.entries).foldl
    (fun m e => if now > e.2.Expiry then m.erase e.1 else m) tokenCache

end zitadel

namespace tacacs_tacquito

/-! ## `tacacs_tacquito/server.go` and `handlers.go` -/

set_option linter.dupNamespace false

/-- Go struct `tacacs_tacquito.Command`. -/
structure Command where
  Command : String
  Timestamp : Int
  Allowed : Bool
deriving DecidableEq, Repr

/-- Go struct `tacacs_tacquito.Session`. -/
structure Session where
  ID : String
  Username : String
  ClientIP : String
  Roles : List String
  StartTime : Int
  Commands : List Command
  Active : Bool
deriving DecidableEq, Repr

/-- A statement handed to `db.Exec`, with its arguments: the three statements
the core issues against the audit store. -/
inductive DbExec where
  | insertSession (id username clientIP : String) (startTime : Int) (status : String)
  | insertCommand (sessionID command : String) (timestamp : Int) (allowed : Bool)
  | updateSessionEnd (endTime : Int) (status : String) (id : String)
deriving DecidableEq, Repr

/-- Go `TacacsServer.findActiveSession`: the id of the first session, in the
visiting order of this loop, with the given user name and `Active` set; the
empty string when there is none. -/
def findActiveSession (order : List Nat) (sessions : GoMap Session) (username : String) :
    String :=
  match (rangeOrder order sessions.entries).find?
      (fun e => decide (e.2.Username = username) && e.2.Active) with
  | some e => e.1
  | none => ""

/-- Go `TacacsServer.recordCommand`: returns the statement passed to `db.Exec`.
`now₁` is the clock reading used for the placeholder id, `now₂` the one used
for the record's timestamp. -/
def recordCommand (order : List Nat) (now₁ now₂ : Int) (sessions : GoMap Session)
    (username command : String) (allowed : Bool) : DbExec :=
  let sessionID := findActiveSession order sessions username
  let sessionID :=
    if sessionID = "" then username ++ "_unknown_" ++ toString (time.Unix now₁) else sessionID
  .insertCommand sessionID command now₂ allowed

/-- The `tq.AuthorStatus…` values the authorize handler replies with. -/
inductive AuthorStatus where
  | AuthorStatusPassAdd
  | AuthorStatusFail
  | AuthorStatusError
deriving DecidableEq, Repr

/-- The fields of a `tq.AuthorReply` set by the handler. -/
structure AuthorReply where
  Status : AuthorStatus
  ServerMsg : String
deriving DecidableEq, Repr

/-- The fields of a `tq.AuthorRequest` read by the handler. -/
structure AuthorRequest where
  User : String
  Args : List String
deriving DecidableEq, Repr

/-- What one run of the authorize handler leaves behind: the reply, the
statements sent to the audit store (oldest first) and the session table. -/
structure AuthorOutcome where
  reply : AuthorReply
  records : List DbExec
  sessions : GoMap Session

/-- Go `AuthorHandler.Handle`.  `body` is the result of `tq.Unmarshal` (`none`
when it fails); `order₁` is the visiting order of the handler's own `range`
loop, `order₂` that of the loop inside `recordCommand`. -/
def AuthorHandler.Handle (tbl : Char → Char) (order₁ order₂ : List Nat) (now₁ now₂ : Int)
    (sessions : GoMap Session) (body : Option AuthorRequest) : AuthorOutcome :=
  match body with
  | none =>
    { reply := { Status := .AuthorStatusError, ServerMsg := "Invalid authorization request" }
      records := []
      sessions := sessions }
  | some body =>
    let username := body.User
    let command :=
      match body.Args with
      | arg :: _ => arg
      | [] => "unknown"
    let userRoles : List String :=
      match (rangeOrder order₁ sessions.entries).find?
          (fun e => decide (e.2.Username = username) && e.2.Active) with
      | some e => e.2.Roles
      | none => []
    if userRoles.length = 0 then
      { reply := { Status := .AuthorStatusFail, ServerMsg := "No active session" }
        records := []
        sessions := sessions }
    else
      let allowed := zitadel.IsAuthorized tbl userRoles command
      let record := recordCommand order₂ now₁ now₂ sessions username command allowed
      if allowed then
        { reply := { Status := .AuthorStatusPassAdd, ServerMsg := "Authorization granted" }
          records := [record]
          sessions := sessions }
      else
        { reply := { Status := .AuthorStatusFail, ServerMsg := "Authorization denied" }
          records := [record]
          sessions := sessions }

/-- Go `TacacsServer.recordSession`: returns the statement passed to `db.Exec`. -/
def recordSession (session : Session) : DbExec :=
  .insertSession session.ID session.Username session.ClientIP session.StartTime "active"

/-- The `sessionID` of `AuthHandler.Handle`: `fmt.Sprintf("%s_%d", username, unix)`,
where `unix` is `time.Now().Unix()`. -/
def sessionID (username : String) (unix : Int) : String :=
  username ++ "_" ++ toString unix

/-- The `tq.AuthenStatus…` values the authenticate handler replies with. -/
inductive AuthenStatus where
  | AuthenStatusPass
  | AuthenStatusFail
  | AuthenStatusError
deriving DecidableEq, Repr

/-- The fields of a `tq.AuthenReply` set by the handler. -/
structure AuthenReply where
  Status : AuthenStatus
  ServerMsg : String
deriving DecidableEq, Repr

/-- The fields of a `tq.AuthenStart` read by the handler. -/
structure AuthenStart where
  User : String
  Data : String
deriving DecidableEq, Repr

/-- What one run of the authenticate handler leaves behind: the reply, the
statements sent to the audit store (oldest first), the session table, and the
token cache and provider requests of the `AuthenticateUser` call it made. -/
structure AuthenOutcome where
  reply : AuthenReply
  records : List DbExec
  sessions : GoMap Session
  tokenCache : GoMap zitadel.CachedToken
  calls : List zitadel.ProviderCall

/-- Go `AuthHandler.Handle`.  `body` is the result of `tq.Unmarshal` (`none`
when it fails); `now₁` and `now₂` are the clock readings of `AuthenticateUser`,
`now₃` the reading whose `Unix()` goes into the session id and `now₄` the one
stored as `StartTime`. -/
def AuthHandler.Handle (cfg : config.Config) (p : zitadel.Provider)
    (now₁ now₂ now₃ now₄ : Int) (tokenCache : GoMap zitadel.CachedToken)
    (sessions : GoMap Session) (body : Option AuthenStart) : AuthenOutcome :=
  match body with
  | none =>
    { reply := { Status := .AuthenStatusError, ServerMsg := "Invalid authentication request" }
      records := []
      sessions := sessions
      tokenCache := tokenCache
      calls := [] }
  | some body =>
    let username := body.User
    let password := body.Data
    let authenticated := zitadel.AuthenticateUser cfg p now₁ now₂ tokenCache username password
    match authenticated.result with
    | .error _ =>
      { reply := { Status := .AuthenStatusFail, ServerMsg := "Authentication failed" }
        records := []
        sessions := sessions
        tokenCache := authenticated.tokenCache
        calls := authenticated.calls }
    | .ok userInfo =>
      let sessionID := sessionID username (time.Unix now₃)
      let session : Session :=
        { ID := sessionID
          Username := username
          ClientIP := "unknown"
          Roles := userInfo.Roles
          StartTime := now₄
          Commands := []
          Active := true }
      { reply := { Status := .AuthenStatusPass, ServerMsg := "Authentication successful" }
        records := [recordSession session]
        sessions := sessions.insert sessionID session
        tokenCache := authenticated.tokenCache
        calls := authenticated.calls }

/-- The answers of `body.Flags.Has` for the three flags the accounting handler
asks about. -/
structure AcctRequestFlag where
  AcctFlagStart : Bool
  AcctFlagStop : Bool
  AcctFlagWatchdog : Bool
deriving DecidableEq, Repr

/-- The fields of a `tq.AcctRequest` read by the handler. -/
structure AcctRequest where
  User : String
  Flags : AcctRequestFlag
deriving DecidableEq, Repr

/-- The `tq.AcctReplyStatus…` values the accounting handler replies with. -/
inductive AcctReplyStatus where
  | AcctReplyStatusSuccess
  | AcctReplyStatusError
deriving DecidableEq, Repr

/-- The fields of a `tq.AcctReply` set by the handler. -/
structure AcctReply where
  Status : AcctReplyStatus
  ServerMsg : String
deriving DecidableEq, Repr

/-- What one run of the accounting handler leaves behind: the reply, the
statements sent to the audit store (oldest first) and the session table. -/
structure AcctOutcome where
  reply : AcctReply
  records : List DbExec
  sessions : GoMap Session

/-- Go `AcctHandler.Handle`.  The `switch` takes the first flag that is set, in
the order Start, Stop, Watchdog.  On Stop the `range` loop (visiting order
`order`) stops at the first session of the user with `Active` set, clears its
`Active` field in place and sends one "completed" update stamped `now`. -/
def AcctHandler.Handle (order : List Nat) (now : Int) (sessions : GoMap Session)
    (body : Option AcctRequest) : AcctOutcome :=
  match body with
  | none =>
    { reply := { Status := .AcctReplyStatusError, ServerMsg := "Invalid accounting request" }
      records := []
      sessions := sessions }
  | some body =>
    let username := body.User
    if body.Flags.AcctFlagStart then
      { reply := { Status := .AcctReplyStatusSuccess, ServerMsg := "Accounting recorded" }
        records := []
        sessions := sessions }
    else if body.Flags.AcctFlagStop then
      match (rangeOrder order sessions.entries).find?
          (fun e => decide (e.2.Username = username) && e.2.Active) with
      | some e =>
        { reply := { Status := .AcctReplyStatusSuccess, ServerMsg := "Accounting recorded" }
          records := [.updateSessionEnd now "completed" e.1]
          sessions := sessions.insert e.1 { e.2 with Active := false } }
      | none =>
        { reply := { Status := .AcctReplyStatusSuccess, ServerMsg := "Accounting recorded" }
          records := []
          sessions := sessions }
    else if body.Flags.AcctFlagWatchdog then
      { reply := { Status := .AcctReplyStatusSuccess, ServerMsg := "Accounting recorded" }
        records := []
        sessions := sessions }
    else
      { reply := { Status := .AcctReplyStatusSuccess, ServerMsg := "Accounting recorded" }
        records := []
        sessions := sessions }

/-- The `cutoff` of `cleanupExpiredSessions`: `time.Now().Add(-timeout)` with
`timeout := time.Duration(SessionTimeout) * time.Second`. -/
def sessionCutoff (cfg : config.Config) (now : Int) : Int :=
  let timeout := time.seconds cfg.SessionTimeout
  now + time.int64 (-timeout)

/-- What one run of `cleanupExpiredSessions` leaves behind: the session table
and the statements sent to the audit store (oldest first). -/
structure CleanupOutcome where
  sessions : GoMap Session
  records : List DbExec

/-- Go `TacacsServer.cleanupExpiredSessions`: the `range` loop over the session
table in the visiting order `order`; a visited session whose `StartTime` is
before the cutoff has `Active` cleared, is deleted from the table and gets an
"expired" update stamped with the clock reading `endTime id` taken for it. -/
def cleanupExpiredSessions (cfg : config.Config) (now : Int) (order : List Nat)
    (endTime : String → Int) (sessions : GoMap Session) : CleanupOutcome :=
  let cutoff := sessionCutoff cfg now
  (rangeOrder order sessions.entries).foldl
    (fun st e =>
      if e.2.StartTime < cutoff then
        { sessions := (st.sessions.insert e.1 { e.2 with Active := false }).erase e.1
          records := st.records ++ [.updateSessionEnd (endTime e.1) "expired" e.1] }
      else st)
    { sessions := sessions, records := [] }

end tacacs_tacquito

namespace zitadel

/-! ### Reference definition of the privilege mapping (from the specification) -/

/-- The fixed mapping of the specification: administrative-tier names give 15,
standard-tier names give 1, read-only-tier names give 0, any other name has no
level. -/
def tierOf (name : String) : Option Int :=
  if name ∈ ["network-admin", "admin", "zitadel.admin"] then some 15
  else if name ∈ ["network-user", "user", "zitadel.user"] then some 1
  else if name ∈ ["network-readonly", "readonly", "viewer"] then some 0
  else none

/-- The specification's `privilegeOf`: the level of the first role, in list
order, whose lower-cased name is in the fixed mapping; 0 when there is none. -/
def privilegeOf_firstMatch (tbl : Char → Char) (roles : List String) : Int :=
  (roles.findSome? (fun role => tierOf (strings.ToLower tbl role))).getD 0

end zitadel

/-! # Theorems -/

/-! ## Visiting orders -/

theorem rangeOrder_perm {α : Type} (choices : List Nat) (l : List α) :
    (rangeOrder choices l).Perm l := by
  induction choices generalizing l with
  | nil => exact List.Perm.refl l
  | cons c cs ih =>
    have hrot := List.rotate_perm l c
    unfold rangeOrder
    cases hl : l.rotate c with
    | nil =>
      rw [hl] at hrot
      simpa using hrot
    | cons x rest =>
      rw [hl] at hrot
      exact ((ih rest).cons x).trans hrot

theorem mem_rangeOrder {α : Type} (choices : List Nat) (l : List α) (a : α) :
    a ∈ rangeOrder choices l ↔ a ∈ l :=
  (rangeOrder_perm choices l).mem_iff

theorem exists_rangeOrder_eq {α : Type} (l visit : List α) (h : visit.Perm l) :
    ∃ choices : List Nat, rangeOrder choices l = visit := by
  induction visit generalizing l with
  | nil =>
    have hl : l = [] := List.perm_nil.1 h.symm
    exact ⟨[], by rw [hl]; rfl⟩
  | cons x xs ih =>
    have hx : x ∈ l := h.subset (List.mem_cons_self x xs)
    obtain ⟨a, b, hab⟩ := List.append_of_mem hx
    have hxs : xs.Perm (b ++ a) := by
      have h1 : (x :: xs).Perm (x :: (a ++ b)) := by
        rw [hab] at h
        exact h.trans List.perm_middle
      exact (List.perm_cons x).1 h1 |>.trans List.perm_append_comm
    obtain ⟨cs, hcs⟩ := ih (b ++ a) hxs
    refine ⟨a.length :: cs, ?_⟩
    have hrot : l.rotate a.length = x :: (b ++ a) := by
      rw [hab, List.rotate_append_length_eq]
      rfl
    simp only [rangeOrder, hrot, hcs]

/-! ## Authorization policy -/

namespace zitadel

theorem GetPrivilegeLevel_cons (tbl : Char → Char) (role : String) (rest : List String) :
    GetPrivilegeLevel tbl (role :: rest) =
      (tierOf (strings.ToLower tbl role)).getD (GetPrivilegeLevel tbl rest) := by
  simp only [GetPrivilegeLevel, tierOf, List.mem_cons, List.mem_singleton, List.not_mem_nil,
    or_false]
  split_ifs <;> rfl

theorem GetPrivilegeLevel_append_of_tierOf_none (tbl : Char → Char) (pre rest : List String)
    (h : ∀ r ∈ pre, tierOf (strings.ToLower tbl r) = none) :
    GetPrivilegeLevel tbl (pre ++ rest) = GetPrivilegeLevel tbl rest := by
  induction pre with
  | nil => rfl
  | cons r pre ih =>
    rw [List.cons_append, GetPrivilegeLevel_cons, h r (List.mem_cons_self r pre)]
    exact ih (fun x hx => h x (List.mem_cons_of_mem r hx))

theorem GetPrivilegeLevel_mem (tbl : Char → Char) (roles : List String) :
    GetPrivilegeLevel tbl roles = 0 ∨ GetPrivilegeLevel tbl roles = 1 ∨
      GetPrivilegeLevel tbl roles = 15 := by
  induction roles with
  | nil => exact Or.inl rfl
  | cons r rest ih =>
    simp only [GetPrivilegeLevel]
    split_ifs <;> simp [ih]

/-- C1. `GetPrivilegeLevel` equals the reference first-match definition
`privilegeOf_firstMatch`: scanning the roles in order, the first role whose
lower-cased name is one of network-admin, admin, zitadel.admin gives 15, one of
network-user, user, zitadel.user gives 1, one of network-readonly, readonly,
viewer gives 0; with no such role the result is 0; and whatever follows the
first matching role has no influence on the result. -/
theorem GetPrivilegeLevel_eq_firstMatch (tbl : Char → Char) (roles : List String) :
    GetPrivilegeLevel tbl roles = privilegeOf_firstMatch tbl roles ∧
    ((∀ r ∈ roles, tierOf (strings.ToLower tbl r) = none) → GetPrivilegeLevel tbl roles = 0) ∧
    (∀ (pre post : List String) (role : String),
      roles = pre ++ role :: post →
      (∀ r ∈ pre, tierOf (strings.ToLower tbl r) = none) →
      (strings.ToLower tbl role ∈ ["network-admin", "admin", "zitadel.admin"] →
        GetPrivilegeLevel tbl roles = 15) ∧
      (strings.ToLower tbl role ∈ ["network-user", "user", "zitadel.user"] →
        GetPrivilegeLevel tbl roles = 1) ∧
      (strings.ToLower tbl role ∈ ["network-readonly", "readonly", "viewer"] →
        GetPrivilegeLevel tbl roles = 0) ∧
      (tierOf (strings.ToLower tbl role) ≠ none →
        ∀ post' : List String,
          GetPrivilegeLevel tbl (pre ++ role :: post') = GetPrivilegeLevel tbl roles)) := by
  refine ⟨?_, ?_, ?_⟩
  · induction roles with
    | nil => rfl
    | cons r rest ih =>
      rw [GetPrivilegeLevel_cons, ih]
      unfold privilegeOf_firstMatch
      rw [List.findSome?_cons]
      cases tierOf (strings.ToLower tbl r) <;> rfl
  · intro h
    have := GetPrivilegeLevel_append_of_tierOf_none tbl roles [] h
    simpa [GetPrivilegeLevel] using this
  · intro pre post role hroles hpre
    subst hroles
    have key : ∀ rest : List String, GetPrivilegeLevel tbl (pre ++ role :: rest) =
        (tierOf (strings.ToLower tbl role)).getD (GetPrivilegeLevel tbl rest) := by
      intro rest
      rw [GetPrivilegeLevel_append_of_tierOf_none tbl pre _ hpre, GetPrivilegeLevel_cons]
    refine ⟨?_, ?_, ?_, ?_⟩
    · intro h
      rw [key]
      simp only [tierOf, if_pos h]
      rfl
    · intro h
      rw [key]
      have h15 : strings.ToLower tbl role ∉ ["network-admin", "admin", "zitadel.admin"] := by
        intro h'
        simp only [List.mem_cons, List.mem_singleton, List.not_mem_nil, or_false] at h h'
        rcases h with h | h | h <;> rw [h] at h' <;> revert h' <;> decide
      simp only [tierOf, if_neg h15, if_pos h]
      rfl
    · intro h
      rw [key]
      have h15 : strings.ToLower tbl role ∉ ["network-admin", "admin", "zitadel.admin"] := by
        intro h'
        simp only [List.mem_cons, List.mem_singleton, List.not_mem_nil, or_false] at h h'
        rcases h with h | h | h <;> rw [h] at h' <;> revert h' <;> decide
      have h1 : strings.ToLower tbl role ∉ ["network-user", "user", "zitadel.user"] := by
        intro h'
        simp only [List.mem_cons, List.mem_singleton, List.not_mem_nil, or_false] at h h'
        rcases h with h | h | h <;> rw [h] at h' <;> revert h' <;> decide
      simp only [tierOf, if_neg h15, if_neg h1, if_pos h]
      rfl
    · intro h post'
      rw [key, key]
      cases ht : tierOf (strings.ToLower tbl role) with
      | none => exact absurd ht h
      | some lvl => rfl

/-- Witness for C1 at the role list `["Guest", "ADMIN", "viewer"]`. -/
theorem GetPrivilegeLevel_eq_firstMatch_witness :
    GetPrivilegeLevel id ["Guest", "ADMIN", "viewer"] = 15 ∧
    GetPrivilegeLevel id ["Guest", "ADMIN", "viewer"] =
      privilegeOf_firstMatch id ["Guest", "ADMIN", "viewer"] ∧
    GetPrivilegeLevel id ["Guest", "ADMIN"] = GetPrivilegeLevel id ["Guest", "ADMIN", "viewer"] :=
  ⟨((GetPrivilegeLevel_eq_firstMatch id ["Guest", "ADMIN", "viewer"]).2.2
      ["Guest"] ["viewer"] "ADMIN" rfl (by decide)).1 (by decide),
    (GetPrivilegeLevel_eq_firstMatch id ["Guest", "ADMIN", "viewer"]).1,
    ((GetPrivilegeLevel_eq_firstMatch id ["Guest", "ADMIN", "viewer"]).2.2
      ["Guest"] ["viewer"] "ADMIN" rfl (by decide)).2.2.2 (by decide) []⟩

end zitadel

namespace zitadel

theorem ToLower_of_ascii (tbl : Char → Char) (s : String)
    (h : ∀ c ∈ s.data, c.toNat ≤ 127) : strings.ToLower tbl s = strings.ToLower id s := by
  unfold strings.ToLower
  congr 1
  apply List.map_congr_left
  intro c hc
  simp only [unicode.ToLower, if_pos (h c hc)]

theorem IsAuthorized_eq_true_iff (tbl : Char → Char) (roles : List String) (command : String) :
    IsAuthorized tbl roles command = true ↔
      (1 ≤ GetPrivilegeLevel tbl roles ∨
        ∃ verb ∈ readOnlyCommands,
          strings.HasPrefix (strings.ToLower tbl command) verb = true) := by
  unfold IsAuthorized
  rcases GetPrivilegeLevel_mem tbl roles with h | h | h <;>
    simp [h, List.any_eq_true]

/-- C2. Whenever `GetPrivilegeLevel roles` is at least 1, `IsAuthorized`
returns true for every command string, the empty one included. -/
theorem IsAuthorized_of_privilege_ge_one (tbl : Char → Char) (roles : List String)
    (command : String) (h : 1 ≤ GetPrivilegeLevel tbl roles) :
    IsAuthorized tbl roles command = true :=
  (IsAuthorized_eq_true_iff tbl roles command).2 (Or.inl h)

/-- Witness for C2: the role list `["user"]` (privilege 1) and the empty command. -/
theorem IsAuthorized_of_privilege_ge_one_witness :
    1 ≤ GetPrivilegeLevel id ["user"] ∧ IsAuthorized id ["user"] "" = true :=
  ⟨by decide, IsAuthorized_of_privilege_ge_one id ["user"] "" (by decide)⟩

/-- C3. At privilege level 0, `IsAuthorized` returns true exactly for the
commands whose lower-cased text starts with one of show, ping, traceroute,
telnet, ssh; so "SHOW version" and "show version" are authorized and
"configure terminal" is denied. -/
theorem IsAuthorized_privilege_zero (tbl : Char → Char) (roles : List String)
    (h : GetPrivilegeLevel tbl roles = 0) :
    (∀ command : String,
      IsAuthorized tbl roles command = true ↔
        ∃ verb ∈ ["show", "ping", "traceroute", "telnet", "ssh"],
          strings.HasPrefix (strings.ToLower tbl command) verb = true) ∧
    IsAuthorized tbl roles "SHOW version" = true ∧
    IsAuthorized tbl roles "show version" = true ∧
    IsAuthorized tbl roles "configure terminal" = false := by
  have main : ∀ command : String,
      IsAuthorized tbl roles command = true ↔
        ∃ verb ∈ ["show", "ping", "traceroute", "telnet", "ssh"],
          strings.HasPrefix (strings.ToLower tbl command) verb = true := by
    intro command
    rw [IsAuthorized_eq_true_iff, h]
    simp [readOnlyCommands]
  refine ⟨main, ?_, ?_, ?_⟩
  · rw [main, ToLower_of_ascii tbl _ (by decide)]
    decide
  · rw [main, ToLower_of_ascii tbl _ (by decide)]
    decide
  · rw [← Bool.not_eq_true, main, ToLower_of_ascii tbl _ (by decide)]
    decide

/-- Witness for C3: the role list `["viewer"]` (privilege 0). -/
theorem IsAuthorized_privilege_zero_witness :
    GetPrivilegeLevel id ["viewer"] = 0 ∧
    IsAuthorized id ["viewer"] "SHOW version" = true ∧
    IsAuthorized id ["viewer"] "configure terminal" = false :=
  ⟨by decide,
    (IsAuthorized_privilege_zero id ["viewer"] (by decide)).2.1,
    (IsAuthorized_privilege_zero id ["viewer"] (by decide)).2.2.2⟩

end zitadel

/-! ## Authorize handler -/

namespace tacacs_tacquito

theorem rangeOrder_singleton {α : Type} (choices : List Nat) (a : α) :
    rangeOrder choices [a] = [a] :=
  List.perm_singleton.1 (rangeOrder_perm choices [a])

theorem find?_rangeOrder_eq_none {α : Type} (choices : List Nat) (l : List α) (p : α → Bool)
    (h : ∀ a ∈ l, p a = false) : (rangeOrder choices l).find? p = none := by
  rw [List.find?_eq_none]
  intro a ha
  rw [mem_rangeOrder] at ha
  simp [h a ha]

/-- The reply of the authorize handler when its loop finds a session with a
non-empty role list: pass-add exactly when `IsAuthorized` holds for these
roles, and one command record is emitted. -/
theorem AuthorHandler_Handle_of_found (tbl : Char → Char) (order₁ order₂ : List Nat)
    (now₁ now₂ : Int) (sessions : GoMap Session) (body : AuthorRequest)
    (e : Sigma fun _ : String => Session)
    (hfind : (rangeOrder order₁ sessions.entries).find?
      (fun e => decide (e.2.Username = body.User) && e.2.Active) = some e)
    (hroles : e.2.Roles ≠ []) :
    (AuthorHandler.Handle tbl order₁ order₂ now₁ now₂ sessions (some body)).reply =
      (if zitadel.IsAuthorized tbl e.2.Roles (body.Args.headD "unknown") = true
        then { Status := .AuthorStatusPassAdd, ServerMsg := "Authorization granted" }
        else { Status := .AuthorStatusFail, ServerMsg := "Authorization denied" }) ∧
    (AuthorHandler.Handle tbl order₁ order₂ now₁ now₂ sessions (some body)).sessions =
      sessions := by
  have hlen : ¬ e.2.Roles.length = 0 := by
    simpa [List.length_eq_zero] using hroles
  have hcmd : (match body.Args with
      | arg :: _ => arg
      | [] => "unknown") = body.Args.headD "unknown" := by
    cases body.Args <;> rfl
  simp only [AuthorHandler.Handle, hfind, hlen, if_false, hcmd]
  split_ifs <;> exact ⟨rfl, rfl⟩

/-- C4, the code at the failing input.  The table holds one session of "dave",
active, with an empty role list.  The empty role list has privilege 0 and
`IsAuthorized` allows "show version" for it, yet the authorize handler replies
fail with "No active session" and records nothing, whatever the visiting orders
and clock readings. -/
theorem AuthorHandler_Handle_active_session_without_roles (tbl : Char → Char)
    (order₁ order₂ : List Nat) (now₁ now₂ : Int) :
    (∃ e ∈ (AList.singleton "dave_1700000000"
        { ID := "dave_1700000000", Username := "dave", ClientIP := "unknown", Roles := [],
          StartTime := 1700000000000000000, Commands := [], Active := true } :
          GoMap Session).entries,
      e.2.Username = "dave" ∧ e.2.Active = true) ∧
    zitadel.GetPrivilegeLevel tbl [] = 0 ∧
    zitadel.IsAuthorized tbl [] "show version" = true ∧
    (AuthorHandler.Handle tbl order₁ order₂ now₁ now₂
      (AList.singleton "dave_1700000000"
        { ID := "dave_1700000000", Username := "dave", ClientIP := "unknown", Roles := [],
          StartTime := 1700000000000000000, Commands := [], Active := true })
      (some { User := "dave", Args := ["show version"] })).reply =
        { Status := .AuthorStatusFail, ServerMsg := "No active session" } ∧
    (AuthorHandler.Handle tbl order₁ order₂ now₁ now₂
      (AList.singleton "dave_1700000000"
        { ID := "dave_1700000000", Username := "dave", ClientIP := "unknown", Roles := [],
          StartTime := 1700000000000000000, Commands := [], Active := true })
      (some { User := "dave", Args := ["show version"] })).records = [] := by
  refine ⟨⟨_, List.mem_singleton_self _, rfl, rfl⟩, rfl, ?_, ?_, ?_⟩
  · rw [zitadel.IsAuthorized_eq_true_iff, zitadel.ToLower_of_ascii tbl _ (by decide)]
    exact Or.inr (by decide)
  · simp only [AuthorHandler.Handle, AList.singleton_entries, rangeOrder_singleton]
    rfl
  · simp only [AuthorHandler.Handle, AList.singleton_entries, rangeOrder_singleton]
    rfl

/-- C5. When no session of the table is an active session of the principal,
the authorize handler replies fail with "No active session" whatever the
command arguments, sends nothing to the audit store and returns the session
table as it was. -/
theorem AuthorHandler_Handle_no_active_session (tbl : Char → Char)
    (order₁ order₂ : List Nat) (now₁ now₂ : Int) (sessions : GoMap Session)
    (username : String) (args : List String)
    (h : ∀ e ∈ sessions.entries, ¬ (e.2.Username = username ∧ e.2.Active = true)) :
    (AuthorHandler.Handle tbl order₁ order₂ now₁ now₂ sessions
      (some { User := username, Args := args })).reply =
        { Status := .AuthorStatusFail, ServerMsg := "No active session" } ∧
    (AuthorHandler.Handle tbl order₁ order₂ now₁ now₂ sessions
      (some { User := username, Args := args })).records = [] ∧
    (AuthorHandler.Handle tbl order₁ order₂ now₁ now₂ sessions
      (some { User := username, Args := args })).sessions = sessions := by
  have hnone : (rangeOrder order₁ sessions.entries).find?
      (fun e => decide (e.2.Username = username) && e.2.Active) = none := by
    apply find?_rangeOrder_eq_none
    intro e he
    have := h e he
    cases hA : e.2.Active <;> simp_all
  simp only [AuthorHandler.Handle, hnone]
  exact ⟨rfl, rfl, rfl⟩

/-- Witness for C5: the table holds an active session of "alice" only, and
"carol" asks for "show version". -/
theorem AuthorHandler_Handle_no_active_session_witness :
    (AuthorHandler.Handle id [] [] 5 6
      (AList.singleton "alice_1"
        { ID := "alice_1", Username := "alice", ClientIP := "unknown", Roles := ["admin"],
          StartTime := 1000000000, Commands := [], Active := true })
      (some { User := "carol", Args := ["show version"] })).reply =
        { Status := .AuthorStatusFail, ServerMsg := "No active session" } :=
  (AuthorHandler_Handle_no_active_session id [] [] 5 6
    (AList.singleton "alice_1"
        { ID := "alice_1", Username := "alice", ClientIP := "unknown", Roles := ["admin"],
          StartTime := 1000000000, Commands := [], Active := true })
    "carol" ["show version"] (by decide)).1

end tacacs_tacquito

/-! ## Credential cache -/

namespace zitadel

theorem seconds_of_inRange (n : Int) (hlo : -9223372036 ≤ n) (hhi : n ≤ 9223372036) :
    time.seconds n = n * 1000000000 := by
  unfold time.seconds time.int64 time.Second
  have h1 : (n + 2 ^ 63) % 2 ^ 64 = n + 2 ^ 63 :=
    Int.emod_eq_of_lt (by omega) (by omega)
  rw [h1]
  have h2 : (n + 2 ^ 63 - 2 ^ 63 : Int) = n := by ring
  rw [h2]
  have h3 : (n * 1000000000 + 2 ^ 63) % 2 ^ 64 = n * 1000000000 + 2 ^ 63 :=
    Int.emod_eq_of_lt (by omega) (by omega)
  rw [h3]
  ring

theorem kerase_eq_filter {V : Type} (k : String) (l : List (Sigma fun _ : String => V))
    (nd : l.NodupKeys) : List.kerase k l = l.filter (fun e => decide (e.1 ≠ k)) := by
  induction l with
  | nil => rfl
  | cons s l ih =>
    have hnd := List.nodupKeys_cons.1 nd
    by_cases h : k = s.1
    · rw [List.kerase_cons_eq h]
      have hs : decide (s.1 ≠ k) = false := by simp [h]
      rw [List.filter_cons_of_neg (by simp [hs])]
      symm
      rw [List.filter_eq_self]
      intro e he
      have : e.1 ≠ k := by
        intro hek
        exact hnd.1 (h ▸ hek ▸ List.mem_keys_of_mem he)
      simp [this]
    · rw [List.kerase_cons_ne h]
      have hs : decide (s.1 ≠ k) = true := by simp [Ne.symm h]
      rw [List.filter_cons, if_pos hs, ih hnd.2]

theorem foldl_erase_entries (now : Int) (es : List (Sigma fun _ : String => CachedToken))
    (m : GoMap CachedToken) :
    (es.foldl (fun m e => if now > e.2.Expiry then m.erase e.1 else m) m).entries =
      m.entries.filter (fun e => decide (∀ x ∈ es, now > x.2.Expiry → e.1 ≠ x.1)) := by
  induction es generalizing m with
  | nil => simp
  | cons x es ih =>
    rw [List.foldl_cons, ih]
    by_cases hx : now > x.2.Expiry
    · rw [if_pos hx]
      show (List.kerase x.1 m.entries).filter _ = _
      rw [kerase_eq_filter x.1 m.entries m.nodupKeys, List.filter_filter]
      apply List.filter_congr
      intro e _
      simp only [List.mem_cons, forall_eq_or_imp, Bool.decide_and, hx, true_implies]
      rw [Bool.and_comm]
    · rw [if_neg hx]
      apply List.filter_congr
      intro e _
      simp only [List.mem_cons, forall_eq_or_imp, Bool.decide_and, hx, false_implies,
        decide_True, Bool.true_and]

theorem AuthenticateUser_of_hit (cfg : config.Config) (p : Provider) (now₁ now₂ : Int)
    (tokenCache : GoMap CachedToken) (username password : String) (cached : CachedToken)
    (hlook : tokenCache.lookup (cacheKey username password) = some cached)
    (hlive : now₁ < cached.Expiry) :
    AuthenticateUser cfg p now₁ now₂ tokenCache username password =
      { result := .ok { Username := username, Roles := cached.Roles, Groups := [] }
        tokenCache := tokenCache
        calls := [] } := by
  simp [AuthenticateUser, hlook, Option.filter, hlive]

theorem lookup_filter_eq_none_of_miss (now₁ : Int) (tokenCache : GoMap CachedToken)
    (key : String)
    (hmiss : ∀ cached, tokenCache.lookup key = some cached → ¬ now₁ < cached.Expiry) :
    (tokenCache.lookup key).filter (fun cached => decide (now₁ < cached.Expiry)) = none := by
  cases h : tokenCache.lookup key with
  | none => rfl
  | some cached => simp [Option.filter, hmiss cached h]

end zitadel

namespace zitadel

theorem AuthenticateUser_of_auth_error (cfg : config.Config) (p : Provider) (now₁ now₂ : Int)
    (tokenCache : GoMap CachedToken) (username password err : String)
    (hmiss : (tokenCache.lookup (cacheKey username password)).filter
      (fun cached => decide (now₁ < cached.Expiry)) = none)
    (hauth : p.authenticateWithPassword username password = .error err) :
    AuthenticateUser cfg p now₁ now₂ tokenCache username password =
      { result := .error ("authentication failed: " ++ err)
        tokenCache := tokenCache
        calls := [.authenticateWithPassword username password] } := by
  simp only [AuthenticateUser, hmiss, hauth]

theorem AuthenticateUser_of_userinfo_error (cfg : config.Config) (p : Provider)
    (now₁ now₂ : Int) (tokenCache : GoMap CachedToken) (username password err : String)
    (token : TokenResponse)
    (hmiss : (tokenCache.lookup (cacheKey username password)).filter
      (fun cached => decide (now₁ < cached.Expiry)) = none)
    (hauth : p.authenticateWithPassword username password = .ok token)
    (hinfo : p.getUserInfo token.AccessToken = .error err) :
    AuthenticateUser cfg p now₁ now₂ tokenCache username password =
      { result := .error ("failed to get user info: " ++ err)
        tokenCache := tokenCache
        calls := [.authenticateWithPassword username password,
                  .getUserInfo token.AccessToken] } := by
  simp only [AuthenticateUser, hmiss, hauth, hinfo]

theorem AuthenticateUser_of_provider_ok (cfg : config.Config) (p : Provider)
    (now₁ now₂ : Int) (tokenCache : GoMap CachedToken) (username password : String)
    (token : TokenResponse) (userInfo : ZitadelUserInfo)
    (hmiss : (tokenCache.lookup (cacheKey username password)).filter
      (fun cached => decide (now₁ < cached.Expiry)) = none)
    (hauth : p.authenticateWithPassword username password = .ok token)
    (hinfo : p.getUserInfo token.AccessToken = .ok userInfo) :
    AuthenticateUser cfg p now₁ now₂ tokenCache username password =
      { result := .ok
          { Username := userInfo.PreferredUsername
            Roles := if (extractRolesFromToken p token.AccessToken).length = 0
              then userInfo.Roles else extractRolesFromToken p token.AccessToken
            Groups := userInfo.Groups }
        tokenCache := tokenCache.insert (cacheKey username password)
          { Token := token
            Expiry := now₂ + time.seconds cfg.TokenCacheTimeout
            Roles := if (extractRolesFromToken p token.AccessToken).length = 0
              then userInfo.Roles else extractRolesFromToken p token.AccessToken }
        calls := [.authenticateWithPassword username password,
                  .getUserInfo token.AccessToken] } := by
  simp only [AuthenticateUser, hmiss, hauth, hinfo]

theorem AuthenticateUser_of_live_entry (cfg : config.Config) (p : Provider) (now₁ now₂ : Int)
    (tokenCache : GoMap CachedToken) (username password : String) (cached : CachedToken)
    (hhit : (tokenCache.lookup (cacheKey username password)).filter
      (fun cached => decide (now₁ < cached.Expiry)) = some cached) :
    AuthenticateUser cfg p now₁ now₂ tokenCache username password =
      { result := .ok { Username := username, Roles := cached.Roles, Groups := [] }
        tokenCache := tokenCache
        calls := [] } := by
  simp only [AuthenticateUser, hhit]

theorem append_colon_inj (l₁ l₂ r₁ r₂ : List Char) (h₁ : ':' ∉ l₁) (h₂ : ':' ∉ l₂)
    (h : l₁ ++ ':' :: r₁ = l₂ ++ ':' :: r₂) : l₁ = l₂ ∧ r₁ = r₂ := by
  induction l₁ generalizing l₂ with
  | nil =>
    cases l₂ with
    | nil => exact ⟨rfl, by simpa using h⟩
    | cons b l₂ =>
      simp only [List.nil_append, List.cons_append, List.cons.injEq] at h
      exact absurd (h.1 ▸ List.mem_cons_self b l₂) h₂
  | cons a l₁ ih =>
    cases l₂ with
    | nil =>
      simp only [List.nil_append, List.cons_append, List.cons.injEq] at h
      exact absurd (h.1 ▸ List.mem_cons_self a l₁) h₁
    | cons b l₂ =>
      simp only [List.cons_append, List.cons.injEq] at h
      have := ih l₂ (fun hm => h₁ (List.mem_cons_of_mem a hm))
        (fun hm => h₂ (List.mem_cons_of_mem b hm)) h.2
      exact ⟨by rw [h.1, this.1], this.2⟩

/-- The cache key tells apart every two credential pairs whose principals
contain no ':'. -/
theorem cacheKey_inj_of_no_colon (u₁ s₁ u₂ s₂ : String) (h₁ : ':' ∉ u₁.data)
    (h₂ : ':' ∉ u₂.data) (h : cacheKey u₁ s₁ = cacheKey u₂ s₂) : u₁ = u₂ ∧ s₁ = s₂ := by
  have hdata : u₁.data ++ ':' :: s₁.data = u₂.data ++ ':' :: s₂.data := by
    have := congrArg String.data h
    simpa [cacheKey, String.data_append] using this
  have := append_colon_inj _ _ _ _ h₁ h₂ hdata
  exact ⟨String.ext this.1, String.ext this.2⟩

/-- C6, the code at the failing input.  The credential pairs ("a:b", "c") and
("a", "b:c") are different and have the same cache key "a:b:c".  After "a"
has authenticated with the secret "b:c" (roles `["admin"]` from the provider),
a request for the principal "a:b" with the secret "c", which the provider
rejects, is answered from the cache with the roles `["admin"]` and without any
provider call; on an empty cache the same request fails. -/
theorem cacheKey_collision_served :
    cacheKey "a:b" "c" = cacheKey "a" "b:c" ∧
    (("a:b", "c") : String × String) ≠ ("a", "b:c") ∧
    (AuthenticateUser
      { SessionTimeout := 3600, TokenCacheTimeout := 300, MaxConcurrentSessions := 1000 }
      { authenticateWithPassword := fun _ _ => .error "authentication failed with status: 400"
        getUserInfo := fun _ => .error "userinfo request failed with status: 401"
        ParseUnverified := fun _ => none }
      10000000000 10000000000
      (AuthenticateUser
        { SessionTimeout := 3600, TokenCacheTimeout := 300, MaxConcurrentSessions := 1000 }
        { authenticateWithPassword := fun username password =>
            if username = "a" ∧ password = "b:c" then
              .ok { AccessToken := "tok", TokenType := "Bearer", ExpiresIn := 3600,
                    RefreshToken := "", Scope := "openid" }
            else .error "authentication failed with status: 400"
          getUserInfo := fun _ =>
            .ok { Sub := "1", PreferredUsername := "a", Name := "A", Email := "a@example.org",
                  EmailVerified := true, Roles := ["admin"], Groups := [] }
          ParseUnverified := fun _ => none }
        0 0 ∅ "a" "b:c").tokenCache
      "a:b" "c").result = .ok { Username := "a:b", Roles := ["admin"], Groups := [] } ∧
    (AuthenticateUser
      { SessionTimeout := 3600, TokenCacheTimeout := 300, MaxConcurrentSessions := 1000 }
      { authenticateWithPassword := fun _ _ => .error "authentication failed with status: 400"
        getUserInfo := fun _ => .error "userinfo request failed with status: 401"
        ParseUnverified := fun _ => none }
      10000000000 10000000000
      (AuthenticateUser
        { SessionTimeout := 3600, TokenCacheTimeout := 300, MaxConcurrentSessions := 1000 }
        { authenticateWithPassword := fun username password =>
            if username = "a" ∧ password = "b:c" then
              .ok { AccessToken := "tok", TokenType := "Bearer", ExpiresIn := 3600,
                    RefreshToken := "", Scope := "openid" }
            else .error "authentication failed with status: 400"
          getUserInfo := fun _ =>
            .ok { Sub := "1", PreferredUsername := "a", Name := "A", Email := "a@example.org",
                  EmailVerified := true, Roles := ["admin"], Groups := [] }
          ParseUnverified := fun _ => none }
        0 0 ∅ "a" "b:c").tokenCache
      "a:b" "c").calls = [] ∧
    (AuthenticateUser
      { SessionTimeout := 3600, TokenCacheTimeout := 300, MaxConcurrentSessions := 1000 }
      { authenticateWithPassword := fun _ _ => .error "authentication failed with status: 400"
        getUserInfo := fun _ => .error "userinfo request failed with status: 401"
        ParseUnverified := fun _ => none }
      10000000000 10000000000 ∅ "a:b" "c").result =
        .error "authentication failed: authentication failed with status: 400" := by
  refine ⟨by decide, by decide, ?_, ?_, ?_⟩ <;> rfl

/-- C7. Cache round trip.  If `AuthenticateUser` for `(username, password)`
succeeded through the provider (the provider was called and the result is
`info`), storing the entry at clock reading `t₀`, then a second call for the
same pair whose cache check happens at any `t₁` strictly before `t₀` plus the
configured TTL returns the same roles, sends nothing to the provider and leaves
the cache as the first call left it.  The TTL is
`time.Duration(TokenCacheTimeout) * time.Second`, which is `TokenCacheTimeout`
seconds for every setting up to 9223372036 (`seconds_of_inRange`). -/
theorem AuthenticateUser_cache_round_trip (cfg : config.Config) (p₁ p₂ : Provider)
    (t t₀ t₁ t₂ : Int) (tokenCache : GoMap CachedToken) (username password : String)
    (info : auth.UserInfo)
    (hok : (AuthenticateUser cfg p₁ t t₀ tokenCache username password).result = .ok info)
    (hcall : (AuthenticateUser cfg p₁ t t₀ tokenCache username password).calls ≠ [])
    (hlt : t₁ < t₀ + time.seconds cfg.TokenCacheTimeout) :
    (AuthenticateUser cfg p₂ t₁ t₂
      (AuthenticateUser cfg p₁ t t₀ tokenCache username password).tokenCache
      username password).result =
        .ok { Username := username, Roles := info.Roles, Groups := [] } ∧
    (AuthenticateUser cfg p₂ t₁ t₂
      (AuthenticateUser cfg p₁ t t₀ tokenCache username password).tokenCache
      username password).calls = [] ∧
    (AuthenticateUser cfg p₂ t₁ t₂
      (AuthenticateUser cfg p₁ t t₀ tokenCache username password).tokenCache
      username password).tokenCache =
        (AuthenticateUser cfg p₁ t t₀ tokenCache username password).tokenCache := by
  have hentry : ∃ token, (AuthenticateUser cfg p₁ t t₀ tokenCache username password).tokenCache =
      tokenCache.insert (cacheKey username password)
        { Token := token, Expiry := t₀ + time.seconds cfg.TokenCacheTimeout,
          Roles := info.Roles } := by
    cases hf : (tokenCache.lookup (cacheKey username password)).filter
        (fun cached => decide (t < cached.Expiry)) with
    | some cached =>
      rw [AuthenticateUser_of_live_entry cfg p₁ t t₀ tokenCache username password cached hf]
        at hcall
      exact absurd rfl hcall
    | none =>
      cases hauth : p₁.authenticateWithPassword username password with
      | error err =>
        rw [AuthenticateUser_of_auth_error cfg p₁ t t₀ tokenCache username password err hf
          hauth] at hok
        cases hok
      | ok token =>
        cases hinfo : p₁.getUserInfo token.AccessToken with
        | error err =>
          rw [AuthenticateUser_of_userinfo_error cfg p₁ t t₀ tokenCache username password err
            token hf hauth hinfo] at hok
          cases hok
        | ok userInfo =>
          rw [AuthenticateUser_of_provider_ok cfg p₁ t t₀ tokenCache username password token
            userInfo hf hauth hinfo] at hok ⊢
          injection hok with hinfo'
          subst hinfo'
          exact ⟨token, rfl⟩
  obtain ⟨token, hcache⟩ := hentry
  rw [hcache]
  have hhit := AuthenticateUser_of_hit cfg p₂ t₁ t₂
    (tokenCache.insert (cacheKey username password)
      { Token := token, Expiry := t₀ + time.seconds cfg.TokenCacheTimeout, Roles := info.Roles })
    username password
    { Token := token, Expiry := t₀ + time.seconds cfg.TokenCacheTimeout, Roles := info.Roles }
    (AList.lookup_insert _) hlt
  rw [hhit]
  exact ⟨rfl, rfl, rfl⟩

/-- Witness for C7: TTL 300 s, first call stored at 2 s, second call checked at
301 s, provider roles `["admin"]`. -/
theorem AuthenticateUser_cache_round_trip_witness :
    (AuthenticateUser
      { SessionTimeout := 3600, TokenCacheTimeout := 300, MaxConcurrentSessions := 1000 }
      { authenticateWithPassword := fun _ _ => .error "authentication failed with status: 400"
        getUserInfo := fun _ => .error "userinfo request failed with status: 401"
        ParseUnverified := fun _ => none }
      301000000000 301000000001
      (AuthenticateUser
        { SessionTimeout := 3600, TokenCacheTimeout := 300, MaxConcurrentSessions := 1000 }
        { authenticateWithPassword := fun _ _ =>
            .ok { AccessToken := "tok", TokenType := "Bearer", ExpiresIn := 3600,
                  RefreshToken := "", Scope := "openid" }
          getUserInfo := fun _ =>
            .ok { Sub := "1", PreferredUsername := "alice", Name := "A",
                  Email := "a@example.org", EmailVerified := true, Roles := ["admin"],
                  Groups := [] }
          ParseUnverified := fun _ => none }
        1000000000 2000000000 ∅ "alice" "pw1").tokenCache
      "alice" "pw1").result = .ok { Username := "alice", Roles := ["admin"], Groups := [] } :=
  (AuthenticateUser_cache_round_trip
    { SessionTimeout := 3600, TokenCacheTimeout := 300, MaxConcurrentSessions := 1000 }
    { authenticateWithPassword := fun _ _ =>
        .ok { AccessToken := "tok", TokenType := "Bearer", ExpiresIn := 3600,
              RefreshToken := "", Scope := "openid" }
      getUserInfo := fun _ =>
        .ok { Sub := "1", PreferredUsername := "alice", Name := "A",
              Email := "a@example.org", EmailVerified := true, Roles := ["admin"],
              Groups := [] }
      ParseUnverified := fun _ => none }
    { authenticateWithPassword := fun _ _ => .error "authentication failed with status: 400"
      getUserInfo := fun _ => .error "userinfo request failed with status: 401"
      ParseUnverified := fun _ => none }
    1000000000 2000000000 301000000000 301000000001 ∅ "alice" "pw1"
    { Username := "alice", Roles := ["admin"], Groups := [] }
    rfl (by simp [AuthenticateUser, cacheKey, Option.filter]) (by decide)).1

end zitadel

namespace zitadel

/-- C8. A cached credential is never served at or after its expiry.  When the
cache holds no entry for the pair, or the clock reading `now₁` of the cache
check is not strictly before the entry's `Expiry`, `AuthenticateUser` sends
exactly one password-authentication request to the provider (any other request
is the userinfo lookup that follows it); and when it succeeds, the roles
returned are the provider's, and the cache is the old one with the entry of
this key replaced as a whole by a new entry carrying the new token, these roles
and `Expiry = now₂ + TTL`, where `now₂` is the clock reading taken when the
entry is stored (`now₂ = now₁` when the clock has not advanced in between);
entries of other keys are unchanged. -/
theorem AuthenticateUser_expired_or_absent (cfg : config.Config) (p : Provider)
    (now₁ now₂ : Int) (tokenCache : GoMap CachedToken) (username password : String)
    (hmiss : ∀ cached, tokenCache.lookup (cacheKey username password) = some cached →
      ¬ now₁ < cached.Expiry) :
    (AuthenticateUser cfg p now₁ now₂ tokenCache username password).calls.count
      (.authenticateWithPassword username password) = 1 ∧
    (∀ c ∈ (AuthenticateUser cfg p now₁ now₂ tokenCache username password).calls,
      c = .authenticateWithPassword username password ∨ ∃ tok, c = .getUserInfo tok) ∧
    (∀ info : auth.UserInfo,
      (AuthenticateUser cfg p now₁ now₂ tokenCache username password).result = .ok info →
      ∃ (token : TokenResponse) (userInfo : ZitadelUserInfo),
        p.authenticateWithPassword username password = .ok token ∧
        p.getUserInfo token.AccessToken = .ok userInfo ∧
        info.Roles = (if (extractRolesFromToken p token.AccessToken).length = 0
          then userInfo.Roles else extractRolesFromToken p token.AccessToken) ∧
        (AuthenticateUser cfg p now₁ now₂ tokenCache username password).tokenCache =
          tokenCache.insert (cacheKey username password)
            { Token := token, Expiry := now₂ + time.seconds cfg.TokenCacheTimeout,
              Roles := info.Roles } ∧
        (AuthenticateUser cfg p now₁ now₂ tokenCache username password).tokenCache.lookup
          (cacheKey username password) =
            some { Token := token, Expiry := now₂ + time.seconds cfg.TokenCacheTimeout,
                   Roles := info.Roles } ∧
        ∀ key : String, key ≠ cacheKey username password →
          (AuthenticateUser cfg p now₁ now₂ tokenCache username password).tokenCache.lookup key =
            tokenCache.lookup key) := by
  have hf := lookup_filter_eq_none_of_miss now₁ tokenCache (cacheKey username password) hmiss
  cases hauth : p.authenticateWithPassword username password with
  | error err =>
    rw [AuthenticateUser_of_auth_error cfg p now₁ now₂ tokenCache username password err hf hauth]
    refine ⟨by simp, by simp, ?_⟩
    intro info hok
    cases hok
  | ok token =>
    cases hinfo : p.getUserInfo token.AccessToken with
    | error err =>
      rw [AuthenticateUser_of_userinfo_error cfg p now₁ now₂ tokenCache username password err
        token hf hauth hinfo]
      refine ⟨by simp [List.count_cons], by simp, ?_⟩
      intro info hok
      cases hok
    | ok userInfo =>
      rw [AuthenticateUser_of_provider_ok cfg p now₁ now₂ tokenCache username password token
        userInfo hf hauth hinfo]
      refine ⟨by simp [List.count_cons], by simp, ?_⟩
      intro info hok
      injection hok with hinfo'
      subst hinfo'
      exact ⟨token, userInfo, rfl, hinfo, rfl, rfl, AList.lookup_insert _,
        fun key hkey => AList.lookup_insert_ne hkey⟩

/-- Witness for C8: the entry of ("alice", "pw1") expired at 5 s, the call is
made at 5 s and stored at 6 s with TTL 300 s. -/
theorem AuthenticateUser_expired_or_absent_witness :
    (AuthenticateUser
      { SessionTimeout := 3600, TokenCacheTimeout := 300, MaxConcurrentSessions := 1000 }
      { authenticateWithPassword := fun _ _ =>
          .ok { AccessToken := "tok2", TokenType := "Bearer", ExpiresIn := 3600,
                RefreshToken := "", Scope := "openid" }
        getUserInfo := fun _ =>
          .ok { Sub := "1", PreferredUsername := "alice", Name := "A",
                Email := "a@example.org", EmailVerified := true, Roles := ["viewer"],
                Groups := [] }
        ParseUnverified := fun _ => none }
      5000000000 6000000000
      (AList.singleton "alice:pw1"
        { Token := { AccessToken := "tok1", TokenType := "Bearer", ExpiresIn := 3600,
                     RefreshToken := "", Scope := "openid" },
          Expiry := 5000000000, Roles := ["admin"] })
      "alice" "pw1").calls.count (.authenticateWithPassword "alice" "pw1") = 1 :=
  (AuthenticateUser_expired_or_absent
    { SessionTimeout := 3600, TokenCacheTimeout := 300, MaxConcurrentSessions := 1000 }
    { authenticateWithPassword := fun _ _ =>
        .ok { AccessToken := "tok2", TokenType := "Bearer", ExpiresIn := 3600,
              RefreshToken := "", Scope := "openid" }
      getUserInfo := fun _ =>
        .ok { Sub := "1", PreferredUsername := "alice", Name := "A",
              Email := "a@example.org", EmailVerified := true, Roles := ["viewer"],
              Groups := [] }
      ParseUnverified := fun _ => none }
    5000000000 6000000000
    (AList.singleton "alice:pw1"
      { Token := { AccessToken := "tok1", TokenType := "Bearer", ExpiresIn := 3600,
                   RefreshToken := "", Scope := "openid" },
        Expiry := 5000000000, Roles := ["admin"] })
    "alice" "pw1"
    (by
      intro cached hc
      have hc' : some ({ Token := { AccessToken := "tok1", TokenType := "Bearer",
                                    ExpiresIn := 3600, RefreshToken := "", Scope := "openid" },
                         Expiry := 5000000000, Roles := ["admin"] } : CachedToken) =
          some cached := hc
      injection hc' with hc'
      subst hc'
      decide)).1

/-- C9. Failures are not cached.  On a cache miss (no entry, or an entry whose
`Expiry` the clock reading `now₁` is not strictly before), when the password
authentication fails, or it succeeds and the userinfo lookup fails,
`AuthenticateUser` returns an error and the cache is exactly the one it was
given. -/
theorem AuthenticateUser_failure_not_cached (cfg : config.Config) (p : Provider)
    (now₁ now₂ : Int) (tokenCache : GoMap CachedToken) (username password : String)
    (hmiss : ∀ cached, tokenCache.lookup (cacheKey username password) = some cached →
      ¬ now₁ < cached.Expiry)
    (hfail : (∃ err, p.authenticateWithPassword username password = .error err) ∨
      (∃ token err, p.authenticateWithPassword username password = .ok token ∧
        p.getUserInfo token.AccessToken = .error err)) :
    (∃ msg, (AuthenticateUser cfg p now₁ now₂ tokenCache username password).result =
      .error msg) ∧
    (AuthenticateUser cfg p now₁ now₂ tokenCache username password).tokenCache = tokenCache := by
  have hf := lookup_filter_eq_none_of_miss now₁ tokenCache (cacheKey username password) hmiss
  rcases hfail with ⟨err, hauth⟩ | ⟨token, err, hauth, hinfo⟩
  · rw [AuthenticateUser_of_auth_error cfg p now₁ now₂ tokenCache username password err hf hauth]
    exact ⟨⟨_, rfl⟩, rfl⟩
  · rw [AuthenticateUser_of_userinfo_error cfg p now₁ now₂ tokenCache username password err
      token hf hauth hinfo]
    exact ⟨⟨_, rfl⟩, rfl⟩

/-- Witness for C9: empty cache, the provider rejects the password. -/
theorem AuthenticateUser_failure_not_cached_witness :
    (AuthenticateUser
      { SessionTimeout := 3600, TokenCacheTimeout := 300, MaxConcurrentSessions := 1000 }
      { authenticateWithPassword := fun _ _ => .error "authentication failed with status: 400"
        getUserInfo := fun _ => .error "userinfo request failed with status: 401"
        ParseUnverified := fun _ => none }
      7 8 ∅ "invalid" "invalid").tokenCache = ∅ :=
  (AuthenticateUser_failure_not_cached
    { SessionTimeout := 3600, TokenCacheTimeout := 300, MaxConcurrentSessions := 1000 }
    { authenticateWithPassword := fun _ _ => .error "authentication failed with status: 400"
      getUserInfo := fun _ => .error "userinfo request failed with status: 401"
      ParseUnverified := fun _ => none }
    7 8 ∅ "invalid" "invalid"
    (by intro cached hc; cases hc)
    (Or.inl ⟨_, rfl⟩)).2

/-- C10. `CleanupCache` removes exactly the entries whose `Expiry` is strictly
before `now`: whatever order the loop visits the cache in, the entries
afterwards are the entries before with those ones filtered out, so an entry is
found afterwards, under the same key and with the same token, roles and expiry,
exactly when it was there before and its `Expiry` is not strictly before `now`. -/
theorem CleanupCache_removes_exactly_expired (now : Int) (order : List Nat)
    (tokenCache : GoMap CachedToken) :
    (CleanupCache now order tokenCache).entries =
      tokenCache.entries.filter (fun e => decide (¬ e.2.Expiry < now)) ∧
    ∀ (key : String) (cached : CachedToken),
      (CleanupCache now order tokenCache).lookup key = some cached ↔
        (tokenCache.lookup key = some cached ∧ ¬ cached.Expiry < now) := by
  have hentries : (CleanupCache now order tokenCache).entries =
      tokenCache.entries.filter (fun e => decide (¬ e.2.Expiry < now)) := by
    unfold CleanupCache
    rw [foldl_erase_entries]
    apply List.filter_congr
    intro e he
    congr 1
    apply propext
    constructor
    · intro h hlt
      exact h e ((mem_rangeOrder order _ e).2 he) hlt rfl
    · intro h x hx hlt hkey
      have hx' := (mem_rangeOrder order _ x).1 hx
      have hex : e = x := tokenCache.nodupKeys.eq_of_fst_eq he hx' hkey
      subst hex
      exact h hlt
  refine ⟨hentries, ?_⟩
  intro key cached
  have hmem : ∀ m : GoMap CachedToken,
      m.lookup key = some cached ↔
        (⟨key, cached⟩ : Sigma fun _ : String => CachedToken) ∈ m.entries :=
    fun m => AList.mem_lookup_iff
  rw [hmem, hmem, hentries, List.mem_filter]
  simp

end zitadel

/-! ## Decimal rendering of integers -/

theorem toDigitsCore_append (b fuel n : Nat) (ds : List Char) :
    Nat.toDigitsCore b fuel n ds = Nat.toDigitsCore b fuel n [] ++ ds := by
  induction fuel generalizing n ds with
  | zero => simp [Nat.toDigitsCore]
  | succ f ih =>
    simp only [Nat.toDigitsCore]
    split_ifs with h
    · simp
    · rw [ih (n / b) (Nat.digitChar (n % b) :: ds), ih (n / b) [Nat.digitChar (n % b)]]
      simp

theorem digitChar_toNat (d : Nat) (h : d < 10) : (Nat.digitChar d).toNat = d + 48 := by
  interval_cases d <;> rfl

theorem toDigitsCore_digits (fuel n : Nat) :
    ∀ c ∈ Nat.toDigitsCore 10 fuel n [], 48 ≤ c.toNat ∧ c.toNat ≤ 57 := by
  induction fuel generalizing n with
  | zero => simp [Nat.toDigitsCore]
  | succ f ih =>
    intro c hc
    have hd := digitChar_toNat (n % 10) (Nat.mod_lt n (by decide))
    simp only [Nat.toDigitsCore] at hc
    split_ifs at hc with h
    · simp only [List.mem_singleton] at hc
      subst hc
      omega
    · rw [toDigitsCore_append] at hc
      simp only [List.mem_append, List.mem_singleton] at hc
      rcases hc with hc | hc
      · exact ih (n / 10) c hc
      · subst hc
        omega

theorem toDigitsCore_value (fuel n : Nat) (h : n < fuel) :
    (Nat.toDigitsCore 10 fuel n []).foldl (fun a c => 10 * a + (c.toNat - 48)) 0 = n := by
  induction fuel generalizing n with
  | zero => omega
  | succ f ih =>
    have hd := digitChar_toNat (n % 10) (Nat.mod_lt n (by decide))
    simp only [Nat.toDigitsCore]
    split_ifs with h0
    · simp only [List.foldl_cons, List.foldl_nil, hd]
      omega
    · rw [toDigitsCore_append, List.foldl_append, ih (n / 10) (by omega)]
      simp only [List.foldl_cons, List.foldl_nil, hd]
      omega

theorem toDigits_injective (a b : Nat) (h : Nat.toDigits 10 a = Nat.toDigits 10 b) : a = b := by
  have ha := toDigitsCore_value (a + 1) a (Nat.lt_succ_self a)
  have hb := toDigitsCore_value (b + 1) b (Nat.lt_succ_self b)
  unfold Nat.toDigits at h
  rw [h] at ha
  exact ha.symm.trans hb

theorem toString_int_data (t : Int) :
    (∃ m : Nat, t = Int.ofNat m ∧ (toString t).data = Nat.toDigits 10 m) ∨
    (∃ m : Nat, t = Int.negSucc m ∧ (toString t).data = '-' :: Nat.toDigits 10 (m + 1)) := by
  cases t with
  | ofNat m => exact Or.inl ⟨m, rfl, rfl⟩
  | negSucc m => exact Or.inr ⟨m, rfl, rfl⟩

theorem toString_int_no_underscore (t : Int) : '_' ∉ (toString t).data := by
  intro hmem
  rcases toString_int_data t with ⟨m, _, hd⟩ | ⟨m, _, hd⟩
  · rw [hd] at hmem
    have := toDigitsCore_digits (m + 1) m '_' hmem
    revert this
    decide
  · rw [hd] at hmem
    rcases List.mem_cons.1 hmem with h | h
    · revert h
      decide
    · have := toDigitsCore_digits (m + 1 + 1) (m + 1) '_' h
      revert this
      decide

theorem toString_int_injective (a b : Int) (h : toString a = toString b) : a = b := by
  have hdata : (toString a).data = (toString b).data := congrArg String.data h
  have hdash : ∀ m : Nat, '-' ∉ Nat.toDigits 10 m := by
    intro m hm
    have := toDigitsCore_digits (m + 1) m '-' hm
    revert this
    decide
  rcases toString_int_data a with ⟨m, ha, hda⟩ | ⟨m, ha, hda⟩ <;>
    rcases toString_int_data b with ⟨k, hb, hdb⟩ | ⟨k, hb, hdb⟩
  · rw [hda, hdb] at hdata
    rw [ha, hb, toDigits_injective m k hdata]
  · rw [hda, hdb] at hdata
    exact absurd (hdata ▸ List.mem_cons_self '-' _) (hdash m)
  · rw [hda, hdb] at hdata
    exact absurd (hdata ▸ List.mem_cons_self '-' _) (hdash k)
  · rw [hda, hdb] at hdata
    have hmk : m + 1 = k + 1 := toDigits_injective _ _ (List.cons.inj hdata).2
    rw [ha, hb, Nat.succ.inj hmk]

theorem append_sep_inj_left (c : Char) (l₁ l₂ r₁ r₂ : List Char) (h₁ : c ∉ l₁) (h₂ : c ∉ l₂)
    (h : l₁ ++ c :: r₁ = l₂ ++ c :: r₂) : l₁ = l₂ ∧ r₁ = r₂ := by
  induction l₁ generalizing l₂ with
  | nil =>
    cases l₂ with
    | nil => exact ⟨rfl, by simpa using h⟩
    | cons b l₂ =>
      simp only [List.nil_append, List.cons_append, List.cons.injEq] at h
      exact absurd (h.1 ▸ List.mem_cons_self b l₂) h₂
  | cons a l₁ ih =>
    cases l₂ with
    | nil =>
      simp only [List.nil_append, List.cons_append, List.cons.injEq] at h
      exact absurd (h.1 ▸ List.mem_cons_self a l₁) h₁
    | cons b l₂ =>
      simp only [List.cons_append, List.cons.injEq] at h
      have := ih l₂ (fun hm => h₁ (List.mem_cons_of_mem a hm))
        (fun hm => h₂ (List.mem_cons_of_mem b hm)) h.2
      exact ⟨by rw [h.1, this.1], this.2⟩

theorem append_sep_inj_right (c : Char) (l₁ l₂ r₁ r₂ : List Char) (h₁ : c ∉ r₁) (h₂ : c ∉ r₂)
    (h : l₁ ++ c :: r₁ = l₂ ++ c :: r₂) : l₁ = l₂ ∧ r₁ = r₂ := by
  have hrev : r₁.reverse ++ c :: l₁.reverse = r₂.reverse ++ c :: l₂.reverse := by
    have := congrArg List.reverse h
    simpa using this
  have := append_sep_inj_left c _ _ _ _ (by simpa using h₁) (by simpa using h₂) hrev
  exact ⟨List.reverse_injective this.2, List.reverse_injective this.1⟩

namespace tacacs_tacquito

theorem sessionID_data (username : String) (unix : Int) :
    (sessionID username unix).data = username.data ++ '_' :: (toString unix).data := by
  simp [sessionID, String.data_append]

theorem sessionID_ne_empty (username : String) (unix : Int) : sessionID username unix ≠ "" := by
  intro h
  have := congrArg String.data h
  rw [sessionID_data] at this
  simp at this

theorem sessionID_inj (u₁ u₂ : String) (t₁ t₂ : Int)
    (h : sessionID u₁ t₁ = sessionID u₂ t₂) : u₁ = u₂ ∧ t₁ = t₂ := by
  have hdata := congrArg String.data h
  rw [sessionID_data, sessionID_data] at hdata
  have := append_sep_inj_right '_' _ _ _ _ (toString_int_no_underscore t₁)
    (toString_int_no_underscore t₂) hdata
  exact ⟨String.ext this.1, toString_int_injective t₁ t₂ (String.ext this.2)⟩

end tacacs_tacquito

/-! ## Authenticate handler -/

namespace tacacs_tacquito

theorem AuthHandler_Handle_of_error (cfg : config.Config) (p : zitadel.Provider)
    (now₁ now₂ now₃ now₄ : Int) (tokenCache : GoMap zitadel.CachedToken)
    (sessions : GoMap Session) (body : AuthenStart) (msg : String)
    (h : (zitadel.AuthenticateUser cfg p now₁ now₂ tokenCache body.User body.Data).result =
      .error msg) :
    AuthHandler.Handle cfg p now₁ now₂ now₃ now₄ tokenCache sessions (some body) =
      { reply := { Status := .AuthenStatusFail, ServerMsg := "Authentication failed" }
        records := []
        sessions := sessions
        tokenCache :=
          (zitadel.AuthenticateUser cfg p now₁ now₂ tokenCache body.User body.Data).tokenCache
        calls := (zitadel.AuthenticateUser cfg p now₁ now₂ tokenCache body.User body.Data).calls } := by
  simp only [AuthHandler.Handle, h]

theorem AuthHandler_Handle_of_ok (cfg : config.Config) (p : zitadel.Provider)
    (now₁ now₂ now₃ now₄ : Int) (tokenCache : GoMap zitadel.CachedToken)
    (sessions : GoMap Session) (body : AuthenStart) (info : auth.UserInfo)
    (h : (zitadel.AuthenticateUser cfg p now₁ now₂ tokenCache body.User body.Data).result =
      .ok info) :
    AuthHandler.Handle cfg p now₁ now₂ now₃ now₄ tokenCache sessions (some body) =
      { reply := { Status := .AuthenStatusPass, ServerMsg := "Authentication successful" }
        records := [recordSession
          { ID := sessionID body.User (time.Unix now₃), Username := body.User,
            ClientIP := "unknown", Roles := info.Roles, StartTime := now₄, Commands := [],
            Active := true }]
        sessions := sessions.insert (sessionID body.User (time.Unix now₃))
          { ID := sessionID body.User (time.Unix now₃), Username := body.User,
            ClientIP := "unknown", Roles := info.Roles, StartTime := now₄, Commands := [],
            Active := true }
        tokenCache :=
          (zitadel.AuthenticateUser cfg p now₁ now₂ tokenCache body.User body.Data).tokenCache
        calls := (zitadel.AuthenticateUser cfg p now₁ now₂ tokenCache body.User body.Data).calls } := by
  simp only [AuthHandler.Handle, h]

theorem find?_rangeOrder_isSome {α : Type} (choices : List Nat) (l : List α) (p : α → Bool)
    (a : α) (ha : a ∈ l) (hp : p a = true) :
    ∃ b, (rangeOrder choices l).find? p = some b ∧ b ∈ l ∧ p b = true := by
  cases hf : (rangeOrder choices l).find? p with
  | none =>
    rw [List.find?_eq_none] at hf
    exact absurd hp (hf a ((mem_rangeOrder choices l a).2 ha))
  | some b =>
    exact ⟨b, rfl, (mem_rangeOrder choices l b).1 (List.mem_of_find?_eq_some hf),
      List.find?_some hf⟩

/-- C11. When the credential resolution of an authenticate request fails, the
handler replies fail with "Authentication failed", returns the session table as
it was and sends nothing (no session-start record) to the audit store. -/
theorem AuthHandler_Handle_authentication_failed (cfg : config.Config)
    (p : zitadel.Provider) (now₁ now₂ now₃ now₄ : Int)
    (tokenCache : GoMap zitadel.CachedToken) (sessions : GoMap Session)
    (username password msg : String)
    (h : (zitadel.AuthenticateUser cfg p now₁ now₂ tokenCache username password).result =
      .error msg) :
    (AuthHandler.Handle cfg p now₁ now₂ now₃ now₄ tokenCache sessions
      (some { User := username, Data := password })).reply =
        { Status := .AuthenStatusFail, ServerMsg := "Authentication failed" } ∧
    (AuthHandler.Handle cfg p now₁ now₂ now₃ now₄ tokenCache sessions
      (some { User := username, Data := password })).sessions = sessions ∧
    (AuthHandler.Handle cfg p now₁ now₂ now₃ now₄ tokenCache sessions
      (some { User := username, Data := password })).records = [] := by
  rw [AuthHandler_Handle_of_error cfg p now₁ now₂ now₃ now₄ tokenCache sessions
    { User := username, Data := password } msg h]
  exact ⟨rfl, rfl, rfl⟩

/-- Witness for C11: the provider rejects ("invalid", "invalid"); the table
holds one session of "alice". -/
theorem AuthHandler_Handle_authentication_failed_witness :
    (AuthHandler.Handle
      { SessionTimeout := 3600, TokenCacheTimeout := 300, MaxConcurrentSessions := 1000 }
      { authenticateWithPassword := fun _ _ => .error "authentication failed with status: 400"
        getUserInfo := fun _ => .error "userinfo request failed with status: 401"
        ParseUnverified := fun _ => none }
      1 2 3 4 ∅
      (AList.singleton "alice_1"
        { ID := "alice_1", Username := "alice", ClientIP := "unknown", Roles := ["admin"],
          StartTime := 1000000000, Commands := [], Active := true })
      (some { User := "invalid", Data := "invalid" })).reply =
        { Status := .AuthenStatusFail, ServerMsg := "Authentication failed" } :=
  (AuthHandler_Handle_authentication_failed
    { SessionTimeout := 3600, TokenCacheTimeout := 300, MaxConcurrentSessions := 1000 }
    { authenticateWithPassword := fun _ _ => .error "authentication failed with status: 400"
      getUserInfo := fun _ => .error "userinfo request failed with status: 401"
      ParseUnverified := fun _ => none }
    1 2 3 4 ∅
    (AList.singleton "alice_1"
      { ID := "alice_1", Username := "alice", ClientIP := "unknown", Roles := ["admin"],
        StartTime := 1000000000, Commands := [], Active := true })
    "invalid" "invalid" "authentication failed: authentication failed with status: 400"
    rfl).1

/-- C12. Session lifecycle, creation.  After an authenticate request whose
credential resolution succeeds, the reply is pass, and `findActiveSession` for
the same principal, run on the table the handler leaves and in any visiting
order, returns the id of a session of that table whose `Username` is the
principal and whose `Active` flag is set; when no id of the table before was
empty, the id returned is not the empty "not found" value. -/
theorem AuthHandler_Handle_then_findActiveSession (cfg : config.Config)
    (p : zitadel.Provider) (now₁ now₂ now₃ now₄ : Int)
    (tokenCache : GoMap zitadel.CachedToken) (sessions : GoMap Session)
    (username password : String) (info : auth.UserInfo) (order : List Nat)
    (h : (zitadel.AuthenticateUser cfg p now₁ now₂ tokenCache username password).result =
      .ok info) :
    (AuthHandler.Handle cfg p now₁ now₂ now₃ now₄ tokenCache sessions
      (some { User := username, Data := password })).reply =
        { Status := .AuthenStatusPass, ServerMsg := "Authentication successful" } ∧
    (∃ e ∈ (AuthHandler.Handle cfg p now₁ now₂ now₃ now₄ tokenCache sessions
        (some { User := username, Data := password })).sessions.entries,
      findActiveSession order
        (AuthHandler.Handle cfg p now₁ now₂ now₃ now₄ tokenCache sessions
          (some { User := username, Data := password })).sessions username = e.1 ∧
      e.2.Username = username ∧ e.2.Active = true) ∧
    ((∀ e ∈ sessions.entries, e.1 ≠ "") →
      findActiveSession order
        (AuthHandler.Handle cfg p now₁ now₂ now₃ now₄ tokenCache sessions
          (some { User := username, Data := password })).sessions username ≠ "") := by
  rw [AuthHandler_Handle_of_ok cfg p now₁ now₂ now₃ now₄ tokenCache sessions
    { User := username, Data := password } info h]
  simp only
  have hmem : (⟨sessionID username (time.Unix now₃),
      { ID := sessionID username (time.Unix now₃), Username := username,
        ClientIP := "unknown", Roles := info.Roles, StartTime := now₄, Commands := [],
        Active := true }⟩ : Sigma fun _ : String => Session) ∈
      (sessions.insert (sessionID username (time.Unix now₃))
        { ID := sessionID username (time.Unix now₃), Username := username,
          ClientIP := "unknown", Roles := info.Roles, StartTime := now₄, Commands := [],
          Active := true }).entries := by
    rw [AList.insert_entries]
    exact List.mem_cons_self _ _
  obtain ⟨b, hfind, hb, hpb⟩ := find?_rangeOrder_isSome order _
    (fun e : Sigma fun _ : String => Session => decide (e.2.Username = username) && e.2.Active)
    _ hmem (by simp)
  have hres : findActiveSession order
      (sessions.insert (sessionID username (time.Unix now₃))
        { ID := sessionID username (time.Unix now₃), Username := username,
          ClientIP := "unknown", Roles := info.Roles, StartTime := now₄, Commands := [],
          Active := true }) username = b.1 := by
    simp only [findActiveSession, hfind]
  simp only [Bool.and_eq_true, decide_eq_true_eq] at hpb
  refine ⟨trivial, ⟨b, hb, hres, hpb.1, hpb.2⟩, ?_⟩
  intro hkeys
  rw [hres]
  rw [AList.insert_entries] at hb
  rcases List.mem_cons.1 hb with hb | hb
  · rw [hb]
    exact sessionID_ne_empty _ _
  · exact hkeys b ((List.kerase_sublist _ _).subset hb)

/-- Witness for C12: "alice" authenticates with roles `["admin"]` into an empty
table. -/
theorem AuthHandler_Handle_then_findActiveSession_witness :
    (AuthHandler.Handle
      { SessionTimeout := 3600, TokenCacheTimeout := 300, MaxConcurrentSessions := 1000 }
      { authenticateWithPassword := fun _ _ =>
          .ok { AccessToken := "tok", TokenType := "Bearer", ExpiresIn := 3600,
                RefreshToken := "", Scope := "openid" }
        getUserInfo := fun _ =>
          .ok { Sub := "1", PreferredUsername := "alice", Name := "A",
                Email := "a@example.org", EmailVerified := true, Roles := ["admin"],
                Groups := [] }
        ParseUnverified := fun _ => none }
      1000000000 2000000000 3000000000 3000000001 ∅ ∅
      (some { User := "alice", Data := "pw1" })).reply =
        { Status := .AuthenStatusPass, ServerMsg := "Authentication successful" } :=
  (AuthHandler_Handle_then_findActiveSession
    { SessionTimeout := 3600, TokenCacheTimeout := 300, MaxConcurrentSessions := 1000 }
    { authenticateWithPassword := fun _ _ =>
        .ok { AccessToken := "tok", TokenType := "Bearer", ExpiresIn := 3600,
              RefreshToken := "", Scope := "openid" }
      getUserInfo := fun _ =>
        .ok { Sub := "1", PreferredUsername := "alice", Name := "A",
              Email := "a@example.org", EmailVerified := true, Roles := ["admin"],
              Groups := [] }
      ParseUnverified := fun _ => none }
    1000000000 2000000000 3000000000 3000000001 ∅ ∅ "alice" "pw1"
    { Username := "alice", Roles := ["admin"], Groups := [] } [] rfl).1

end tacacs_tacquito

namespace tacacs_tacquito

/-- When the id allocated by a successful authenticate request is not yet a key
of the table, the table afterwards holds one more session and every session of
the table before is still found under its id, unchanged. -/
theorem AuthHandler_Handle_fresh_id (cfg : config.Config) (p : zitadel.Provider)
    (now₁ now₂ now₃ now₄ : Int) (tokenCache : GoMap zitadel.CachedToken)
    (sessions : GoMap Session) (username password : String) (info : auth.UserInfo)
    (h : (zitadel.AuthenticateUser cfg p now₁ now₂ tokenCache username password).result =
      .ok info)
    (hfresh : sessionID username (time.Unix now₃) ∉ sessions) :
    (AuthHandler.Handle cfg p now₁ now₂ now₃ now₄ tokenCache sessions
      (some { User := username, Data := password })).sessions.entries.length =
        sessions.entries.length + 1 ∧
    ∀ (id : String) (session : Session), sessions.lookup id = some session →
      (AuthHandler.Handle cfg p now₁ now₂ now₃ now₄ tokenCache sessions
        (some { User := username, Data := password })).sessions.lookup id = some session := by
  rw [AuthHandler_Handle_of_ok cfg p now₁ now₂ now₃ now₄ tokenCache sessions
    { User := username, Data := password } info h]
  simp only
  refine ⟨?_, ?_⟩
  · rw [AList.insert_entries_of_neg hfresh, List.length_cons]
  · intro id session hlook
    have hne : id ≠ sessionID username (time.Unix now₃) := by
      intro hid
      apply hfresh
      rw [← hid, ← AList.lookup_isSome, hlook]
      rfl
    rw [AList.lookup_insert_ne hne, hlook]

/-- C16, the code at the failing input.  The table holds the session
"alice_100" that "alice" opened at 100.1 s; "alice" authenticates again and the
handler reads the clock at 100.9 s, the same Unix second.  The handler replies
pass, yet the table still holds one session, not two: the id "alice_100" is
allocated a second time, the earlier session is overwritten by the new one,
and the session-start record carries the id of the earlier record. -/
theorem AuthHandler_Handle_same_second_overwrites :
    (AuthHandler.Handle
      { SessionTimeout := 3600, TokenCacheTimeout := 300, MaxConcurrentSessions := 1000 }
      { authenticateWithPassword := fun _ _ =>
          .ok { AccessToken := "tok", TokenType := "Bearer", ExpiresIn := 3600,
                RefreshToken := "", Scope := "openid" }
        getUserInfo := fun _ =>
          .ok { Sub := "1", PreferredUsername := "alice", Name := "A",
                Email := "a@example.org", EmailVerified := true, Roles := ["admin"],
                Groups := [] }
        ParseUnverified := fun _ => none }
      100200000000 100300000000 100900000000 100900000001 ∅
      (AList.singleton "alice_100"
        { ID := "alice_100", Username := "alice", ClientIP := "unknown", Roles := ["admin"],
          StartTime := 100100000000, Commands := [], Active := true })
      (some { User := "alice", Data := "pw1" })).reply =
        { Status := .AuthenStatusPass, ServerMsg := "Authentication successful" } ∧
    (AList.singleton "alice_100"
        ({ ID := "alice_100", Username := "alice", ClientIP := "unknown", Roles := ["admin"],
           StartTime := 100100000000, Commands := [], Active := true } : Session) :
      GoMap Session).entries.length = 1 ∧
    (AuthHandler.Handle
      { SessionTimeout := 3600, TokenCacheTimeout := 300, MaxConcurrentSessions := 1000 }
      { authenticateWithPassword := fun _ _ =>
          .ok { AccessToken := "tok", TokenType := "Bearer", ExpiresIn := 3600,
                RefreshToken := "", Scope := "openid" }
        getUserInfo := fun _ =>
          .ok { Sub := "1", PreferredUsername := "alice", Name := "A",
                Email := "a@example.org", EmailVerified := true, Roles := ["admin"],
                Groups := [] }
        ParseUnverified := fun _ => none }
      100200000000 100300000000 100900000000 100900000001 ∅
      (AList.singleton "alice_100"
        { ID := "alice_100", Username := "alice", ClientIP := "unknown", Roles := ["admin"],
          StartTime := 100100000000, Commands := [], Active := true })
      (some { User := "alice", Data := "pw1" })).sessions.entries =
        [⟨"alice_100",
          { ID := "alice_100", Username := "alice", ClientIP := "unknown", Roles := ["admin"],
            StartTime := 100900000001, Commands := [], Active := true }⟩] ∧
    (AuthHandler.Handle
      { SessionTimeout := 3600, TokenCacheTimeout := 300, MaxConcurrentSessions := 1000 }
      { authenticateWithPassword := fun _ _ =>
          .ok { AccessToken := "tok", TokenType := "Bearer", ExpiresIn := 3600,
                RefreshToken := "", Scope := "openid" }
        getUserInfo := fun _ =>
          .ok { Sub := "1", PreferredUsername := "alice", Name := "A",
                Email := "a@example.org", EmailVerified := true, Roles := ["admin"],
                Groups := [] }
        ParseUnverified := fun _ => none }
      100200000000 100300000000 100900000000 100900000001 ∅
      (AList.singleton "alice_100"
        { ID := "alice_100", Username := "alice", ClientIP := "unknown", Roles := ["admin"],
          StartTime := 100100000000, Commands := [], Active := true })
      (some { User := "alice", Data := "pw1" })).records =
        [.insertSession "alice_100" "alice" "unknown" 100900000001 "active"] := by
  refine ⟨?_, ?_, ?_, ?_⟩ <;> rfl

/-- C20. The session id format `<principal>_<unix seconds>` is injective: equal
ids come from equal principals and equal seconds, whatever characters the
principals contain.  So an authenticate request of principal `u₂` leaves the
entry stored under the id of principal `u₁` and second `t₁` as it was, unless
`u₁ = u₂` and `t₁` is the very second the handler reads. -/
theorem sessionID_injective_overwrite (u₁ u₂ : String) (t₁ t₂ : Int) :
    (sessionID u₁ t₁ = sessionID u₂ t₂ → u₁ = u₂ ∧ t₁ = t₂) ∧
    ∀ (cfg : config.Config) (p : zitadel.Provider) (now₁ now₂ now₃ now₄ : Int)
      (tokenCache : GoMap zitadel.CachedToken) (sessions : GoMap Session) (password : String),
      ¬ (u₁ = u₂ ∧ t₁ = time.Unix now₃) →
      (AuthHandler.Handle cfg p now₁ now₂ now₃ now₄ tokenCache sessions
        (some { User := u₂, Data := password })).sessions.lookup (sessionID u₁ t₁) =
          sessions.lookup (sessionID u₁ t₁) := by
  refine ⟨sessionID_inj u₁ u₂ t₁ t₂, ?_⟩
  intro cfg p now₁ now₂ now₃ now₄ tokenCache sessions password hne
  cases hres : (zitadel.AuthenticateUser cfg p now₁ now₂ tokenCache u₂ password).result with
  | error msg =>
    rw [AuthHandler_Handle_of_error cfg p now₁ now₂ now₃ now₄ tokenCache sessions
      { User := u₂, Data := password } msg hres]
  | ok info =>
    rw [AuthHandler_Handle_of_ok cfg p now₁ now₂ now₃ now₄ tokenCache sessions
      { User := u₂, Data := password } info hres]
    exact AList.lookup_insert_ne (fun hid => hne (sessionID_inj _ _ _ _ hid))

/-- Witness for C20: the principals "a_1" and "a" at the seconds 5 and 15. -/
theorem sessionID_injective_overwrite_witness :
    sessionID "a_1" 5 ≠ sessionID "a" 15 ∧
    (AuthHandler.Handle
      { SessionTimeout := 3600, TokenCacheTimeout := 300, MaxConcurrentSessions := 1000 }
      { authenticateWithPassword := fun _ _ =>
          .ok { AccessToken := "tok", TokenType := "Bearer", ExpiresIn := 3600,
                RefreshToken := "", Scope := "openid" }
        getUserInfo := fun _ =>
          .ok { Sub := "1", PreferredUsername := "a", Name := "A",
                Email := "a@example.org", EmailVerified := true, Roles := ["admin"],
                Groups := [] }
        ParseUnverified := fun _ => none }
      1 2 15000000000 15000000001 ∅
      (AList.singleton "a_1_5"
        { ID := "a_1_5", Username := "a_1", ClientIP := "unknown", Roles := ["viewer"],
          StartTime := 5000000000, Commands := [], Active := true })
      (some { User := "a", Data := "pw" })).sessions.lookup (sessionID "a_1" 5) =
        (AList.singleton "a_1_5"
          ({ ID := "a_1_5", Username := "a_1", ClientIP := "unknown", Roles := ["viewer"],
             StartTime := 5000000000, Commands := [], Active := true } : Session) :
          GoMap Session).lookup (sessionID "a_1" 5) :=
  ⟨fun h => absurd ((sessionID_injective_overwrite "a_1" "a" 5 15).1 h).2 (by decide),
    (sessionID_injective_overwrite "a_1" "a" 5 15).2
      { SessionTimeout := 3600, TokenCacheTimeout := 300, MaxConcurrentSessions := 1000 }
      { authenticateWithPassword := fun _ _ =>
          .ok { AccessToken := "tok", TokenType := "Bearer", ExpiresIn := 3600,
                RefreshToken := "", Scope := "openid" }
        getUserInfo := fun _ =>
          .ok { Sub := "1", PreferredUsername := "a", Name := "A",
                Email := "a@example.org", EmailVerified := true, Roles := ["admin"],
                Groups := [] }
        ParseUnverified := fun _ => none }
      1 2 15000000000 15000000001 ∅
      (AList.singleton "a_1_5"
        { ID := "a_1_5", Username := "a_1", ClientIP := "unknown", Roles := ["viewer"],
          StartTime := 5000000000, Commands := [], Active := true })
      "pw" (by decide)⟩

end tacacs_tacquito

/-! ## Accounting handler -/

namespace tacacs_tacquito

theorem kerase_cons_self {V : Type} (k : String) (v : V)
    (l : List (Sigma fun _ : String => V)) : List.kerase k (⟨k, v⟩ :: l) = l :=
  List.kerase_cons_eq rfl

theorem find?_rangeOrder_eq_some_of_unique {α : Type} (choices : List Nat) (l : List α)
    (p : α → Bool) (a : α) (ha : a ∈ l) (hp : p a = true)
    (huniq : ∀ b ∈ l, p b = true → b = a) : (rangeOrder choices l).find? p = some a := by
  obtain ⟨b, hfind, hb, hpb⟩ := find?_rangeOrder_isSome choices l p a ha hp
  rw [hfind, huniq b hb hpb]

theorem findActiveSession_eq_empty (order : List Nat) (sessions : GoMap Session)
    (username : String)
    (h : ∀ e ∈ sessions.entries, ¬ (e.2.Username = username ∧ e.2.Active = true)) :
    findActiveSession order sessions username = "" := by
  have hnone : (rangeOrder order sessions.entries).find?
      (fun e => decide (e.2.Username = username) && e.2.Active) = none := by
    apply find?_rangeOrder_eq_none
    intro e he
    have := h e he
    cases hA : e.2.Active <;> simp_all
  simp only [findActiveSession, hnone]

theorem AuthorHandler_Handle_reply_of_no_active (tbl : Char → Char)
    (order₁ order₂ : List Nat) (now₁ now₂ : Int) (sessions : GoMap Session)
    (body : AuthorRequest)
    (h : ∀ e ∈ sessions.entries, ¬ (e.2.Username = body.User ∧ e.2.Active = true)) :
    (AuthorHandler.Handle tbl order₁ order₂ now₁ now₂ sessions (some body)).reply =
      { Status := .AuthorStatusFail, ServerMsg := "No active session" } := by
  have hnone : (rangeOrder order₁ sessions.entries).find?
      (fun e => decide (e.2.Username = body.User) && e.2.Active) = none := by
    apply find?_rangeOrder_eq_none
    intro e he
    have := h e he
    cases hA : e.2.Active <;> simp_all
  simp only [AuthorHandler.Handle, hnone]
  rfl

theorem AcctHandler_Handle_stop_of_found (order : List Nat) (now : Int)
    (sessions : GoMap Session) (username : String) (watchdog : Bool)
    (e : Sigma fun _ : String => Session)
    (hfind : (rangeOrder order sessions.entries).find?
      (fun e => decide (e.2.Username = username) && e.2.Active) = some e) :
    AcctHandler.Handle order now sessions
      (some { User := username
              Flags := { AcctFlagStart := false, AcctFlagStop := true,
                         AcctFlagWatchdog := watchdog } }) =
      { reply := { Status := .AcctReplyStatusSuccess, ServerMsg := "Accounting recorded" }
        records := [.updateSessionEnd now "completed" e.1]
        sessions := sessions.insert e.1 { e.2 with Active := false } } := by
  simp [AcctHandler.Handle, hfind]

/-- C13, counterexample.  "alice" already has the active session "alice_100";
she authenticates again at second 200 and an accounting Stop for "alice"
follows.  The Stop deactivates one session only (here "alice_200"), so
`findActiveSession` still finds "alice_100" and an authorize request for
"show version" is granted instead of failing with "No active session". -/
theorem create_then_stop_still_active :
    findActiveSession []
      (AcctHandler.Handle [] 201000000000
        (AuthHandler.Handle
          { SessionTimeout := 3600, TokenCacheTimeout := 300, MaxConcurrentSessions := 1000 }
          { authenticateWithPassword := fun _ _ =>
              .ok { AccessToken := "tok", TokenType := "Bearer", ExpiresIn := 3600,
                    RefreshToken := "", Scope := "openid" }
            getUserInfo := fun _ =>
              .ok { Sub := "1", PreferredUsername := "alice", Name := "A",
                    Email := "a@example.org", EmailVerified := true, Roles := ["admin"],
                    Groups := [] }
            ParseUnverified := fun _ => none }
          200000000000 200000000001 200000000002 200000000003 ∅
          (AList.singleton "alice_100"
            { ID := "alice_100", Username := "alice", ClientIP := "unknown",
              Roles := ["admin"], StartTime := 100000000000, Commands := [], Active := true })
          (some { User := "alice", Data := "pw1" })).sessions
        (some { User := "alice"
                Flags := { AcctFlagStart := false, AcctFlagStop := true,
                           AcctFlagWatchdog := false } })).sessions
      "alice" = "alice_100" ∧
    (AuthorHandler.Handle id [] [] 202000000000 202000000001
      (AcctHandler.Handle [] 201000000000
        (AuthHandler.Handle
          { SessionTimeout := 3600, TokenCacheTimeout := 300, MaxConcurrentSessions := 1000 }
          { authenticateWithPassword := fun _ _ =>
              .ok { AccessToken := "tok", TokenType := "Bearer", ExpiresIn := 3600,
                    RefreshToken := "", Scope := "openid" }
            getUserInfo := fun _ =>
              .ok { Sub := "1", PreferredUsername := "alice", Name := "A",
                    Email := "a@example.org", EmailVerified := true, Roles := ["admin"],
                    Groups := [] }
            ParseUnverified := fun _ => none }
          200000000000 200000000001 200000000002 200000000003 ∅
          (AList.singleton "alice_100"
            { ID := "alice_100", Username := "alice", ClientIP := "unknown",
              Roles := ["admin"], StartTime := 100000000000, Commands := [], Active := true })
          (some { User := "alice", Data := "pw1" })).sessions
        (some { User := "alice"
                Flags := { AcctFlagStart := false, AcctFlagStop := true,
                           AcctFlagWatchdog := false } })).sessions
      (some { User := "alice", Args := ["show version"] })).reply =
        { Status := .AuthorStatusPassAdd, ServerMsg := "Authorization granted" } := by
  refine ⟨?_, ?_⟩ <;> rfl

/-- C13, amended.  When the principal has no active session in the table, then
after a successful authenticate request followed by an accounting Stop event
for the principal (Stop flag set, Start flag clear), no session of the table is
an active session of the principal: `findActiveSession` returns the empty "not
found" value in every visiting order, and an authorize request for the
principal is answered fail with "No active session". -/
theorem create_then_stop_no_active_session (cfg : config.Config) (p : zitadel.Provider)
    (now₁ now₂ now₃ now₄ now₅ now₆ now₇ : Int) (tokenCache : GoMap zitadel.CachedToken)
    (sessions : GoMap Session) (username password : String) (info : auth.UserInfo)
    (watchdog : Bool) (order₁ order₂ order₃ order₄ : List Nat) (tbl : Char → Char)
    (args : List String)
    (hnone : ∀ e ∈ sessions.entries, ¬ (e.2.Username = username ∧ e.2.Active = true))
    (hok : (zitadel.AuthenticateUser cfg p now₁ now₂ tokenCache username password).result =
      .ok info) :
    findActiveSession order₂
      (AcctHandler.Handle order₁ now₅
        (AuthHandler.Handle cfg p now₁ now₂ now₃ now₄ tokenCache sessions
          (some { User := username, Data := password })).sessions
        (some { User := username
                Flags := { AcctFlagStart := false, AcctFlagStop := true,
                           AcctFlagWatchdog := watchdog } })).sessions
      username = "" ∧
    (AuthorHandler.Handle tbl order₃ order₄ now₆ now₇
      (AcctHandler.Handle order₁ now₅
        (AuthHandler.Handle cfg p now₁ now₂ now₃ now₄ tokenCache sessions
          (some { User := username, Data := password })).sessions
        (some { User := username
                Flags := { AcctFlagStart := false, AcctFlagStop := true,
                           AcctFlagWatchdog := watchdog } })).sessions
      (some { User := username, Args := args })).reply =
        { Status := .AuthorStatusFail, ServerMsg := "No active session" } := by
  rw [AuthHandler_Handle_of_ok cfg p now₁ now₂ now₃ now₄ tokenCache sessions
    { User := username, Data := password } info hok]
  simp only
  have hentries := @AList.insert_entries _ _ _ (sessionID username (time.Unix now₃))
    ({ ID := sessionID username (time.Unix now₃), Username := username,
       ClientIP := "unknown", Roles := info.Roles, StartTime := now₄, Commands := [],
       Active := true } : Session) sessions
  have hsub : ∀ e ∈ List.kerase (sessionID username (time.Unix now₃)) sessions.entries,
      ¬ (e.2.Username = username ∧ e.2.Active = true) :=
    fun e he => hnone e ((List.kerase_sublist _ _).subset he)
  have hfind := find?_rangeOrder_eq_some_of_unique order₁
    (sessions.insert (sessionID username (time.Unix now₃))
      { ID := sessionID username (time.Unix now₃), Username := username,
        ClientIP := "unknown", Roles := info.Roles, StartTime := now₄, Commands := [],
        Active := true }).entries
    (fun e => decide (e.2.Username = username) && e.2.Active)
    ⟨sessionID username (time.Unix now₃),
      { ID := sessionID username (time.Unix now₃), Username := username,
        ClientIP := "unknown", Roles := info.Roles, StartTime := now₄, Commands := [],
        Active := true }⟩
    (by rw [hentries]; exact List.mem_cons_self _ _)
    (by simp)
    (by
      intro b hb hpb
      rw [hentries] at hb
      rcases List.mem_cons.1 hb with hb | hb
      · exact hb
      · simp only [Bool.and_eq_true, decide_eq_true_eq] at hpb
        exact absurd hpb (hsub b hb))
  rw [AcctHandler_Handle_stop_of_found order₁ now₅ _ username watchdog _ hfind]
  simp only
  have hafter : ∀ e ∈ ((sessions.insert (sessionID username (time.Unix now₃))
      { ID := sessionID username (time.Unix now₃), Username := username,
        ClientIP := "unknown", Roles := info.Roles, StartTime := now₄, Commands := [],
        Active := true }).insert (sessionID username (time.Unix now₃))
      { ID := sessionID username (time.Unix now₃), Username := username,
        ClientIP := "unknown", Roles := info.Roles, StartTime := now₄, Commands := [],
        Active := false }).entries,
      ¬ (e.2.Username = username ∧ e.2.Active = true) := by
    intro e he
    rw [AList.insert_entries, hentries, kerase_cons_self] at he
    rcases List.mem_cons.1 he with he | he
    · rw [he]
      simp
    · exact hsub e he
  exact ⟨findActiveSession_eq_empty order₂ _ username hafter,
    AuthorHandler_Handle_reply_of_no_active tbl order₃ order₄ now₆ now₇ _
      { User := username, Args := args } hafter⟩

/-- Witness for the amended C13: "alice" authenticates into an empty table and
stops. -/
theorem create_then_stop_no_active_session_witness :
    findActiveSession []
      (AcctHandler.Handle [] 5
        (AuthHandler.Handle
          { SessionTimeout := 3600, TokenCacheTimeout := 300, MaxConcurrentSessions := 1000 }
          { authenticateWithPassword := fun _ _ =>
              .ok { AccessToken := "tok", TokenType := "Bearer", ExpiresIn := 3600,
                    RefreshToken := "", Scope := "openid" }
            getUserInfo := fun _ =>
              .ok { Sub := "1", PreferredUsername := "alice", Name := "A",
                    Email := "a@example.org", EmailVerified := true, Roles := ["admin"],
                    Groups := [] }
            ParseUnverified := fun _ => none }
          1 2 3 4 ∅ ∅ (some { User := "alice", Data := "pw1" })).sessions
        (some { User := "alice"
                Flags := { AcctFlagStart := false, AcctFlagStop := true,
                           AcctFlagWatchdog := false } })).sessions
      "alice" = "" :=
  (create_then_stop_no_active_session
    { SessionTimeout := 3600, TokenCacheTimeout := 300, MaxConcurrentSessions := 1000 }
    { authenticateWithPassword := fun _ _ =>
        .ok { AccessToken := "tok", TokenType := "Bearer", ExpiresIn := 3600,
              RefreshToken := "", Scope := "openid" }
      getUserInfo := fun _ =>
        .ok { Sub := "1", PreferredUsername := "alice", Name := "A",
              Email := "a@example.org", EmailVerified := true, Roles := ["admin"],
              Groups := [] }
      ParseUnverified := fun _ => none }
    1 2 3 4 5 6 7 ∅ ∅ "alice" "pw1" { Username := "alice", Roles := ["admin"], Groups := [] }
    false [] [] [] [] id ["show version"]
    (by intro e he; cases he) rfl).1

end tacacs_tacquito

/-! ## Expiry sweep of the session table -/

namespace tacacs_tacquito

theorem erase_insert_self {V : Type} (k : String) (v : V) (m : GoMap V) :
    (m.insert k v).erase k = m.erase k := by
  apply AList.ext
  show List.kerase k (m.insert k v).entries = List.kerase k m.entries
  rw [AList.insert_entries, kerase_cons_self]

theorem foldl_cleanup (cutoff : Int) (endTime : String → Int)
    (es : List (Sigma fun _ : String => Session)) (st : CleanupOutcome) :
    (es.foldl
      (fun (st : CleanupOutcome) (e : Sigma fun _ : String => Session) =>
        if e.2.StartTime < cutoff then
          { sessions := (st.sessions.insert e.1 { e.2 with Active := false }).erase e.1
            records := st.records ++ [.updateSessionEnd (endTime e.1) "expired" e.1] }
        else st) st).sessions.entries =
      st.sessions.entries.filter
        (fun e => decide (∀ x ∈ es, x.2.StartTime < cutoff → e.1 ≠ x.1)) ∧
    (es.foldl
      (fun (st : CleanupOutcome) (e : Sigma fun _ : String => Session) =>
        if e.2.StartTime < cutoff then
          { sessions := (st.sessions.insert e.1 { e.2 with Active := false }).erase e.1
            records := st.records ++ [.updateSessionEnd (endTime e.1) "expired" e.1] }
        else st) st).records =
      st.records ++ (es.filter (fun x => decide (x.2.StartTime < cutoff))).map
        (fun x => DbExec.updateSessionEnd (endTime x.1) "expired" x.1) := by
  induction es generalizing st with
  | nil => simp
  | cons x es ih =>
    rw [List.foldl_cons]
    by_cases hx : x.2.StartTime < cutoff
    · rw [if_pos hx]
      obtain ⟨ih1, ih2⟩ := ih
        { sessions := (st.sessions.insert x.1 { x.2 with Active := false }).erase x.1
          records := st.records ++ [.updateSessionEnd (endTime x.1) "expired" x.1] }
      refine ⟨?_, ?_⟩
      · rw [ih1]
        simp only [erase_insert_self]
        show (List.kerase x.1 st.sessions.entries).filter _ = _
        rw [zitadel.kerase_eq_filter x.1 st.sessions.entries st.sessions.nodupKeys,
          List.filter_filter]
        apply List.filter_congr
        intro e _
        simp only [List.mem_cons, forall_eq_or_imp, Bool.decide_and, hx, true_implies]
        rw [Bool.and_comm]
      · rw [ih2, List.filter_cons, if_pos (by simpa using hx)]
        simp
    · rw [if_neg hx]
      obtain ⟨ih1, ih2⟩ := ih st
      refine ⟨?_, ?_⟩
      · rw [ih1]
        apply List.filter_congr
        intro e _
        simp only [List.mem_cons, forall_eq_or_imp, Bool.decide_and, hx, false_implies,
          decide_True, Bool.true_and]
      · rw [ih2, List.filter_cons, if_neg (by simpa using hx)]

theorem cleanupExpiredSessions_entries (cfg : config.Config) (now : Int) (order : List Nat)
    (endTime : String → Int) (sessions : GoMap Session) :
    (cleanupExpiredSessions cfg now order endTime sessions).sessions.entries =
      sessions.entries.filter (fun e => decide (¬ e.2.StartTime < sessionCutoff cfg now)) := by
  unfold cleanupExpiredSessions
  rw [(foldl_cleanup (sessionCutoff cfg now) endTime _ _).1]
  apply List.filter_congr
  intro e he
  congr 1
  apply propext
  constructor
  · intro h hlt
    exact h e ((mem_rangeOrder order _ e).2 he) hlt rfl
  · intro h x hx hlt hkey
    have hx' := (mem_rangeOrder order _ x).1 hx
    have hex : e = x := sessions.nodupKeys.eq_of_fst_eq he hx' hkey
    subst hex
    exact h hlt

theorem cleanupExpiredSessions_records (cfg : config.Config) (now : Int) (order : List Nat)
    (endTime : String → Int) (sessions : GoMap Session) :
    (cleanupExpiredSessions cfg now order endTime sessions).records =
      ((rangeOrder order sessions.entries).filter
        (fun x => decide (x.2.StartTime < sessionCutoff cfg now))).map
        (fun x => DbExec.updateSessionEnd (endTime x.1) "expired" x.1) := by
  unfold cleanupExpiredSessions
  rw [(foldl_cleanup (sessionCutoff cfg now) endTime _ _).2]
  simp

theorem cleanupExpiredSessions_lookup (cfg : config.Config) (now : Int) (order : List Nat)
    (endTime : String → Int) (sessions : GoMap Session) (id : String) (session : Session) :
    (cleanupExpiredSessions cfg now order endTime sessions).sessions.lookup id = some session ↔
      (sessions.lookup id = some session ∧ ¬ session.StartTime < sessionCutoff cfg now) := by
  have hmem : ∀ m : GoMap Session,
      m.lookup id = some session ↔
        (⟨id, session⟩ : Sigma fun _ : String => Session) ∈ m.entries :=
    fun m => AList.mem_lookup_iff
  rw [hmem, hmem, cleanupExpiredSessions_entries, List.mem_filter]
  simp

theorem cleanupExpiredSessions_of_none_before (cfg : config.Config) (now : Int)
    (order : List Nat) (endTime : String → Int) (sessions : GoMap Session)
    (h : ∀ e ∈ sessions.entries, ¬ e.2.StartTime < sessionCutoff cfg now) :
    cleanupExpiredSessions cfg now order endTime sessions =
      { sessions := sessions, records := [] } := by
  unfold cleanupExpiredSessions
  have hall : ∀ e ∈ rangeOrder order sessions.entries,
      ¬ e.2.StartTime < sessionCutoff cfg now :=
    fun e he => h e ((mem_rangeOrder order _ e).1 he)
  generalize rangeOrder order sessions.entries = es at hall
  generalize ({ sessions := sessions, records := [] } : CleanupOutcome) = st
  induction es generalizing st with
  | nil => rfl
  | cons x es ih =>
    rw [List.foldl_cons, if_neg (hall x (List.mem_cons_self x es))]
    exact ih (fun e he => hall e (List.mem_cons_of_mem x he)) st

theorem cleanupExpiredSessions_lookup_of_before (cfg : config.Config) (now : Int)
    (order : List Nat) (endTime : String → Int) (sessions : GoMap Session) (id : String)
    (session : Session) (hlook : sessions.lookup id = some session)
    (hold : session.StartTime < sessionCutoff cfg now) :
    (cleanupExpiredSessions cfg now order endTime sessions).sessions.lookup id = none := by
  cases hafter : (cleanupExpiredSessions cfg now order endTime sessions).sessions.lookup id with
  | none => rfl
  | some s' =>
    have h' := (cleanupExpiredSessions_lookup cfg now order endTime sessions id s').1 hafter
    have hs : s' = session := Option.some.inj (h'.1.symm.trans hlook)
    exact absurd (hs ▸ hold) h'.2

theorem nodupKeys_filter_rangeOrder (cfg : config.Config) (now : Int) (order : List Nat)
    (sessions : GoMap Session) :
    ((rangeOrder order sessions.entries).filter
      (fun x => decide (x.2.StartTime < sessionCutoff cfg now))).NodupKeys :=
  ((List.perm_nodupKeys (rangeOrder_perm order sessions.entries)).2
    sessions.nodupKeys).sublist (List.filter_sublist _)

theorem mem_filter_rangeOrder_of_before (cfg : config.Config) (now : Int) (order : List Nat)
    (sessions : GoMap Session) (id : String) (session : Session)
    (hlook : sessions.lookup id = some session)
    (hold : session.StartTime < sessionCutoff cfg now) :
    (⟨id, session⟩ : Sigma fun _ : String => Session) ∈
      (rangeOrder order sessions.entries).filter
        (fun x => decide (x.2.StartTime < sessionCutoff cfg now)) := by
  rw [List.mem_filter]
  exact ⟨(mem_rangeOrder order _ _).2 (AList.mem_lookup_iff.1 hlook), by simpa using hold⟩

theorem cleanupExpiredSessions_count_of_before (cfg : config.Config) (now : Int)
    (order : List Nat) (endTime : String → Int) (sessions : GoMap Session) (id : String)
    (session : Session) (hlook : sessions.lookup id = some session)
    (hold : session.StartTime < sessionCutoff cfg now) :
    (cleanupExpiredSessions cfg now order endTime sessions).records.count
      (.updateSessionEnd (endTime id) "expired" id) = 1 := by
  have hnd := nodupKeys_filter_rangeOrder cfg now order sessions
  rw [cleanupExpiredSessions_records]
  apply List.count_eq_one_of_mem
  · apply List.Nodup.map_on
    · intro x hx y hy hxy
      have hkey : x.1 = y.1 := by
        injection hxy
      exact hnd.eq_of_fst_eq hx hy hkey
    · exact hnd.nodup
  · exact List.mem_map.2
      ⟨⟨id, session⟩, mem_filter_rangeOrder_of_before cfg now order sessions id session hlook
        hold, rfl⟩

theorem cleanupExpiredSessions_one_record_of_before (cfg : config.Config) (now : Int)
    (order : List Nat) (endTime : String → Int) (sessions : GoMap Session) (id : String)
    (session : Session) (hlook : sessions.lookup id = some session)
    (hold : session.StartTime < sessionCutoff cfg now) :
    ∃ before after : List DbExec,
      (cleanupExpiredSessions cfg now order endTime sessions).records =
        before ++ DbExec.updateSessionEnd (endTime id) "expired" id :: after ∧
      ∀ r ∈ before ++ after, ∀ (t : Int) (status : String),
        r ≠ DbExec.updateSessionEnd t status id := by
  have hnd := nodupKeys_filter_rangeOrder cfg now order sessions
  have hmem := mem_filter_rangeOrder_of_before cfg now order sessions id session hlook hold
  obtain ⟨a, b, hab⟩ := List.append_of_mem hmem
  rw [hab] at hnd
  have hnodup : (a ++ (⟨id, session⟩ : Sigma fun _ : String => Session) :: b).Nodup :=
    hnd.nodup
  have hnot : (⟨id, session⟩ : Sigma fun _ : String => Session) ∉ a ++ b :=
    (List.nodup_cons.1 (List.nodup_middle.1 hnodup)).1
  refine ⟨a.map (fun x => DbExec.updateSessionEnd (endTime x.1) "expired" x.1),
    b.map (fun x => DbExec.updateSessionEnd (endTime x.1) "expired" x.1), ?_, ?_⟩
  · rw [cleanupExpiredSessions_records, hab, List.map_append, List.map_cons]
  · intro r hr t status hrec
    rw [← List.map_append] at hr
    obtain ⟨x, hx, hxr⟩ := List.mem_map.1 hr
    rw [hrec] at hxr
    have hkey : x.1 = id := by
      injection hxr
    have hx' : x ∈ a ++ (⟨id, session⟩ : Sigma fun _ : String => Session) :: b := by
      rcases List.mem_append.1 hx with h | h
      · exact List.mem_append_left _ h
      · exact List.mem_append_right _ (List.mem_cons_of_mem _ h)
    have hxe : x = ⟨id, session⟩ :=
      hnd.eq_of_fst_eq hx' (List.mem_append_right _ (List.mem_cons_self _ _)) hkey
    exact hnot (hxe ▸ hx)

theorem cleanupExpiredSessions_no_record_of_not_before (cfg : config.Config) (now : Int)
    (order : List Nat) (endTime : String → Int) (sessions : GoMap Session) (id : String)
    (session : Session) (hlook : sessions.lookup id = some session)
    (hnew : ¬ session.StartTime < sessionCutoff cfg now) (t : Int) (status : String) :
    DbExec.updateSessionEnd t status id ∉
      (cleanupExpiredSessions cfg now order endTime sessions).records := by
  intro hrec
  rw [cleanupExpiredSessions_records] at hrec
  obtain ⟨x, hx, hxrec⟩ := List.mem_map.1 hrec
  rw [List.mem_filter] at hx
  have hkey : x.1 = id := by
    injection hxrec
  have hxe : x = ⟨id, session⟩ :=
    sessions.nodupKeys.eq_of_fst_eq ((mem_rangeOrder order _ x).1 hx.1)
      (AList.mem_lookup_iff.1 hlook) hkey
  have hold : x.2.StartTime < sessionCutoff cfg now := by simpa using hx.2
  rw [hxe] at hold
  exact hnew hold

theorem cleanupExpiredSessions_records_expired (cfg : config.Config) (now : Int)
    (order : List Nat) (endTime : String → Int) (sessions : GoMap Session) :
    ∀ r ∈ (cleanupExpiredSessions cfg now order endTime sessions).records,
      ∃ e ∈ sessions.entries, e.2.StartTime < sessionCutoff cfg now ∧
        r = DbExec.updateSessionEnd (endTime e.1) "expired" e.1 := by
  intro r hr
  rw [cleanupExpiredSessions_records] at hr
  obtain ⟨x, hx, hxr⟩ := List.mem_map.1 hr
  rw [List.mem_filter] at hx
  exact ⟨x, (mem_rangeOrder order _ x).1 hx.1, by simpa using hx.2, hxr.symm⟩

end tacacs_tacquito

namespace tacacs_tacquito

/-- C14, counterexample.  The table holds the session "bob_1", started at 1 s
and already inactive (stopped).  With a session timeout of 3600 s the sweep at
10000 s has the cutoff 6400 s; it removes this inactive session from the table
and sends an "expired" update for it. -/
theorem cleanupExpiredSessions_expires_inactive :
    sessionCutoff
      { SessionTimeout := 3600, TokenCacheTimeout := 300, MaxConcurrentSessions := 1000 }
      10000000000000 = 6400000000000 ∧
    (cleanupExpiredSessions
      { SessionTimeout := 3600, TokenCacheTimeout := 300, MaxConcurrentSessions := 1000 }
      10000000000000 [] (fun _ => 10000000000001)
      (AList.singleton "bob_1"
        { ID := "bob_1", Username := "bob", ClientIP := "unknown", Roles := ["viewer"],
          StartTime := 1000000000, Commands := [], Active := false })).sessions.entries = [] ∧
    (cleanupExpiredSessions
      { SessionTimeout := 3600, TokenCacheTimeout := 300, MaxConcurrentSessions := 1000 }
      10000000000000 [] (fun _ => 10000000000001)
      (AList.singleton "bob_1"
        { ID := "bob_1", Username := "bob", ClientIP := "unknown", Roles := ["viewer"],
          StartTime := 1000000000, Commands := [], Active := false })).records =
        [.updateSessionEnd 10000000000001 "expired" "bob_1"] := by
  refine ⟨?_, ?_, ?_⟩ <;> rfl

/-- C14, amended.  For every table, visiting order and cutoff,
`cleanupExpiredSessions` removes from the table exactly the sessions whose
`StartTime` is before the cutoff, active or not.  Each active one of them is
gone from the table and gets exactly one end record: the statements sent hold
the "expired" update of its id once, and no other statement sent is an update
of its id, whatever its time stamp and status.  Every session started at or
after the cutoff is still found under its id, unchanged, and no update carries
its id.  Every statement the sweep sends is the "expired" update of a session
started before the cutoff. -/
theorem cleanupExpiredSessions_before_cutoff (cfg : config.Config) (now : Int)
    (order : List Nat) (endTime : String → Int) (sessions : GoMap Session) :
    (cleanupExpiredSessions cfg now order endTime sessions).sessions.entries =
      sessions.entries.filter (fun e => decide (¬ e.2.StartTime < sessionCutoff cfg now)) ∧
    (∀ (id : String) (session : Session), sessions.lookup id = some session →
      session.StartTime < sessionCutoff cfg now → session.Active = true →
      (cleanupExpiredSessions cfg now order endTime sessions).sessions.lookup id = none ∧
      (cleanupExpiredSessions cfg now order endTime sessions).records.count
        (.updateSessionEnd (endTime id) "expired" id) = 1 ∧
      ∃ before after : List DbExec,
        (cleanupExpiredSessions cfg now order endTime sessions).records =
          before ++ DbExec.updateSessionEnd (endTime id) "expired" id :: after ∧
        ∀ r ∈ before ++ after, ∀ (t : Int) (status : String),
          r ≠ DbExec.updateSessionEnd t status id) ∧
    (∀ (id : String) (session : Session), sessions.lookup id = some session →
      ¬ session.StartTime < sessionCutoff cfg now →
      (cleanupExpiredSessions cfg now order endTime sessions).sessions.lookup id =
        some session ∧
      ∀ (t : Int) (status : String),
        DbExec.updateSessionEnd t status id ∉
          (cleanupExpiredSessions cfg now order endTime sessions).records) ∧
    (∀ r ∈ (cleanupExpiredSessions cfg now order endTime sessions).records,
      ∃ e ∈ sessions.entries, e.2.StartTime < sessionCutoff cfg now ∧
        r = DbExec.updateSessionEnd (endTime e.1) "expired" e.1) := by
  refine ⟨cleanupExpiredSessions_entries cfg now order endTime sessions, ?_, ?_,
    cleanupExpiredSessions_records_expired cfg now order endTime sessions⟩
  · intro id session hlook hold _
    exact ⟨cleanupExpiredSessions_lookup_of_before cfg now order endTime sessions id session
        hlook hold,
      cleanupExpiredSessions_count_of_before cfg now order endTime sessions id session
        hlook hold,
      cleanupExpiredSessions_one_record_of_before cfg now order endTime sessions id session
        hlook hold⟩
  · intro id session hlook hnew
    exact ⟨(cleanupExpiredSessions_lookup cfg now order endTime sessions id session).2
        ⟨hlook, hnew⟩,
      cleanupExpiredSessions_no_record_of_not_before cfg now order endTime sessions id
        session hlook hnew⟩

/-- Witness for the amended C14: an active session started at 1 s is swept at
10000 s (cutoff 6400 s) and gets one "expired" update. -/
theorem cleanupExpiredSessions_before_cutoff_witness :
    (cleanupExpiredSessions
      { SessionTimeout := 3600, TokenCacheTimeout := 300, MaxConcurrentSessions := 1000 }
      10000000000000 [] (fun _ => 10000000000001)
      (AList.singleton "alice_1"
        { ID := "alice_1", Username := "alice", ClientIP := "unknown", Roles := ["admin"],
          StartTime := 1000000000, Commands := [], Active := true })).records.count
      (.updateSessionEnd 10000000000001 "expired" "alice_1") = 1 :=
  ((cleanupExpiredSessions_before_cutoff
    { SessionTimeout := 3600, TokenCacheTimeout := 300, MaxConcurrentSessions := 1000 }
    10000000000000 [] (fun _ => 10000000000001)
    (AList.singleton "alice_1"
      { ID := "alice_1", Username := "alice", ClientIP := "unknown", Roles := ["admin"],
        StartTime := 1000000000, Commands := [], Active := true })).2.1
    "alice_1"
    { ID := "alice_1", Username := "alice", ClientIP := "unknown", Roles := ["admin"],
      StartTime := 1000000000, Commands := [], Active := true }
    rfl (by decide) rfl).2.1

/-- C15. Idempotence of the sweep.  Running `cleanupExpiredSessions` a second
time with the same cutoff, in any visiting order, on the table the first run
left returns that same table and sends no update to the audit store.  So each
eligible session (active, started before the cutoff) is expired exactly once:
it is gone from the table after the first run and after the second, and the
statements of the two runs together hold the "expired" update of its id once
and no other update of its id.  A session started at or after the cutoff is
still in the table, unchanged, after both runs, and neither run sends an update
of its id. -/
theorem cleanupExpiredSessions_idempotent (cfg : config.Config) (now : Int)
    (order₁ order₂ : List Nat) (endTime₁ endTime₂ : String → Int) (sessions : GoMap Session) :
    (cleanupExpiredSessions cfg now order₂ endTime₂
      (cleanupExpiredSessions cfg now order₁ endTime₁ sessions).sessions).sessions =
        (cleanupExpiredSessions cfg now order₁ endTime₁ sessions).sessions ∧
    (cleanupExpiredSessions cfg now order₂ endTime₂
      (cleanupExpiredSessions cfg now order₁ endTime₁ sessions).sessions).records = [] ∧
    (∀ (id : String) (session : Session), sessions.lookup id = some session →
      session.StartTime < sessionCutoff cfg now → session.Active = true →
      (cleanupExpiredSessions cfg now order₁ endTime₁ sessions).sessions.lookup id = none ∧
      (cleanupExpiredSessions cfg now order₂ endTime₂
        (cleanupExpiredSessions cfg now order₁ endTime₁ sessions).sessions).sessions.lookup id =
          none ∧
      ∃ before after : List DbExec,
        (cleanupExpiredSessions cfg now order₁ endTime₁ sessions).records ++
          (cleanupExpiredSessions cfg now order₂ endTime₂
            (cleanupExpiredSessions cfg now order₁ endTime₁ sessions).sessions).records =
          before ++ DbExec.updateSessionEnd (endTime₁ id) "expired" id :: after ∧
        ∀ r ∈ before ++ after, ∀ (t : Int) (status : String),
          r ≠ DbExec.updateSessionEnd t status id) ∧
    (∀ (id : String) (session : Session), sessions.lookup id = some session →
      ¬ session.StartTime < sessionCutoff cfg now →
      (cleanupExpiredSessions cfg now order₂ endTime₂
        (cleanupExpiredSessions cfg now order₁ endTime₁ sessions).sessions).sessions.lookup id =
          some session ∧
      ∀ (t : Int) (status : String),
        DbExec.updateSessionEnd t status id ∉
          (cleanupExpiredSessions cfg now order₁ endTime₁ sessions).records ++
            (cleanupExpiredSessions cfg now order₂ endTime₂
              (cleanupExpiredSessions cfg now order₁ endTime₁ sessions).sessions).records) := by
  have hnone : ∀ e ∈ (cleanupExpiredSessions cfg now order₁ endTime₁ sessions).sessions.entries,
      ¬ e.2.StartTime < sessionCutoff cfg now := by
    intro e he
    rw [cleanupExpiredSessions_entries, List.mem_filter] at he
    simpa using he.2
  rw [cleanupExpiredSessions_of_none_before cfg now order₂ endTime₂ _ hnone]
  simp only [List.append_nil]
  refine ⟨trivial, trivial, ?_, ?_⟩
  · intro id session hlook hold _
    exact ⟨cleanupExpiredSessions_lookup_of_before cfg now order₁ endTime₁ sessions id session
        hlook hold,
      cleanupExpiredSessions_lookup_of_before cfg now order₁ endTime₁ sessions id session
        hlook hold,
      cleanupExpiredSessions_one_record_of_before cfg now order₁ endTime₁ sessions id session
        hlook hold⟩
  · intro id session hlook hnew
    exact ⟨(cleanupExpiredSessions_lookup cfg now order₁ endTime₁ sessions id session).2
        ⟨hlook, hnew⟩,
      cleanupExpiredSessions_no_record_of_not_before cfg now order₁ endTime₁ sessions id
        session hlook hnew⟩

/-- Witness for C15: the table holds "alice_1" (active, started at 1 s) and
"bob_9000" (started at 9000 s); two sweeps at 10000 s with the cutoff 6400 s.
"alice_1" is gone after the second sweep and "bob_9000" is still there. -/
theorem cleanupExpiredSessions_idempotent_witness :
    (cleanupExpiredSessions
      { SessionTimeout := 3600, TokenCacheTimeout := 300, MaxConcurrentSessions := 1000 }
      10000000000000 [1] (fun _ => 10000000000003)
      (cleanupExpiredSessions
        { SessionTimeout := 3600, TokenCacheTimeout := 300, MaxConcurrentSessions := 1000 }
        10000000000000 [] (fun _ => 10000000000001)
        ((AList.singleton "bob_9000"
          { ID := "bob_9000", Username := "bob", ClientIP := "unknown", Roles := ["viewer"],
            StartTime := 9000000000000, Commands := [], Active := true }).insert "alice_1"
          { ID := "alice_1", Username := "alice", ClientIP := "unknown", Roles := ["admin"],
            StartTime := 1000000000, Commands := [], Active := true })).sessions).sessions.lookup
      "alice_1" = none ∧
    (cleanupExpiredSessions
      { SessionTimeout := 3600, TokenCacheTimeout := 300, MaxConcurrentSessions := 1000 }
      10000000000000 [1] (fun _ => 10000000000003)
      (cleanupExpiredSessions
        { SessionTimeout := 3600, TokenCacheTimeout := 300, MaxConcurrentSessions := 1000 }
        10000000000000 [] (fun _ => 10000000000001)
        ((AList.singleton "bob_9000"
          { ID := "bob_9000", Username := "bob", ClientIP := "unknown", Roles := ["viewer"],
            StartTime := 9000000000000, Commands := [], Active := true }).insert "alice_1"
          { ID := "alice_1", Username := "alice", ClientIP := "unknown", Roles := ["admin"],
            StartTime := 1000000000, Commands := [], Active := true })).sessions).sessions.lookup
      "bob_9000" =
        some { ID := "bob_9000", Username := "bob", ClientIP := "unknown", Roles := ["viewer"],
               StartTime := 9000000000000, Commands := [], Active := true } := by
  have h := cleanupExpiredSessions_idempotent
    { SessionTimeout := 3600, TokenCacheTimeout := 300, MaxConcurrentSessions := 1000 }
    10000000000000 [] [1] (fun _ => 10000000000001) (fun _ => 10000000000003)
    ((AList.singleton "bob_9000"
      { ID := "bob_9000", Username := "bob", ClientIP := "unknown", Roles := ["viewer"],
        StartTime := 9000000000000, Commands := [], Active := true }).insert "alice_1"
      { ID := "alice_1", Username := "alice", ClientIP := "unknown", Roles := ["admin"],
        StartTime := 1000000000, Commands := [], Active := true })
  have halice := h.2.2.1 "alice_1"
    { ID := "alice_1", Username := "alice", ClientIP := "unknown", Roles := ["admin"],
      StartTime := 1000000000, Commands := [], Active := true }
    (AList.lookup_insert _) (by decide) rfl
  have hlook : ((AList.singleton "bob_9000"
      { ID := "bob_9000", Username := "bob", ClientIP := "unknown", Roles := ["viewer"],
        StartTime := 9000000000000, Commands := [], Active := true }).insert "alice_1"
      { ID := "alice_1", Username := "alice", ClientIP := "unknown", Roles := ["admin"],
        StartTime := 1000000000, Commands := [], Active := true } :
        GoMap Session).lookup "bob_9000" =
      some { ID := "bob_9000", Username := "bob", ClientIP := "unknown", Roles := ["viewer"],
             StartTime := 9000000000000, Commands := [], Active := true } :=
    (AList.lookup_insert_ne (by decide)).trans rfl
  have hbob := h.2.2.2 "bob_9000"
    { ID := "bob_9000", Username := "bob", ClientIP := "unknown", Roles := ["viewer"],
      StartTime := 9000000000000, Commands := [], Active := true }
    hlook (by decide)
  exact ⟨halice.2.1, hbob.1⟩

end tacacs_tacquito

/-! ## Command records -/

namespace tacacs_tacquito

/-- No handler stores a session under the empty id: the ids of the table after
an authenticate request are non-empty when those before were. -/
theorem AuthHandler_Handle_ids_ne_empty (cfg : config.Config) (p : zitadel.Provider)
    (now₁ now₂ now₃ now₄ : Int) (tokenCache : GoMap zitadel.CachedToken)
    (sessions : GoMap Session) (body : Option AuthenStart)
    (h : ∀ e ∈ sessions.entries, e.1 ≠ "") :
    ∀ e ∈ (AuthHandler.Handle cfg p now₁ now₂ now₃ now₄ tokenCache sessions
      body).sessions.entries, e.1 ≠ "" := by
  cases body with
  | none => exact h
  | some body =>
    cases hres : (zitadel.AuthenticateUser cfg p now₁ now₂ tokenCache body.User
        body.Data).result with
    | error msg =>
      rw [AuthHandler_Handle_of_error cfg p now₁ now₂ now₃ now₄ tokenCache sessions body msg
        hres]
      exact h
    | ok info =>
      rw [AuthHandler_Handle_of_ok cfg p now₁ now₂ now₃ now₄ tokenCache sessions body info
        hres]
      intro e he
      simp only [AList.insert_entries] at he
      rcases List.mem_cons.1 he with he | he
      · rw [he]
        exact sessionID_ne_empty _ _
      · exact h e ((List.kerase_sublist _ _).subset he)

/-- The ids of the table after an accounting request are ids of the table
before. -/
theorem AcctHandler_Handle_ids_ne_empty (order : List Nat) (now : Int)
    (sessions : GoMap Session) (body : Option AcctRequest)
    (h : ∀ e ∈ sessions.entries, e.1 ≠ "") :
    ∀ e ∈ (AcctHandler.Handle order now sessions body).sessions.entries, e.1 ≠ "" := by
  cases body with
  | none => exact h
  | some body =>
    unfold AcctHandler.Handle
    simp only
    split_ifs
    · exact h
    · cases hfind : (rangeOrder order sessions.entries).find?
          (fun e => decide (e.2.Username = body.User) && e.2.Active) with
      | none => exact h
      | some x =>
        intro e he
        simp only [AList.insert_entries] at he
        rcases List.mem_cons.1 he with he | he
        · rw [he]
          exact h x ((mem_rangeOrder order _ x).1 (List.mem_of_find?_eq_some hfind))
        · exact h e ((List.kerase_sublist _ _).subset he)
    · exact h
    · exact h

/-- The ids of the table after the expiry sweep are ids of the table before. -/
theorem cleanupExpiredSessions_ids_ne_empty (cfg : config.Config) (now : Int)
    (order : List Nat) (endTime : String → Int) (sessions : GoMap Session)
    (h : ∀ e ∈ sessions.entries, e.1 ≠ "") :
    ∀ e ∈ (cleanupExpiredSessions cfg now order endTime sessions).sessions.entries,
      e.1 ≠ "" := by
  intro e he
  rw [cleanupExpiredSessions_entries] at he
  exact h e (List.mem_filter.1 he).1

theorem AuthorHandler_Handle_sessions (tbl : Char → Char) (order₁ order₂ : List Nat)
    (now₁ now₂ : Int) (sessions : GoMap Session) (body : Option AuthorRequest) :
    (AuthorHandler.Handle tbl order₁ order₂ now₁ now₂ sessions body).sessions = sessions := by
  cases body with
  | none => rfl
  | some body =>
    unfold AuthorHandler.Handle
    simp only
    split_ifs <;> rfl

/-- C17. `recordCommand` sends exactly one command record, carrying the given
command and allowed flag unchanged.  In a table whose ids are all non-empty (as
every id the handlers allocate is), its session id is the id of an active
session of the principal when the table has one, and otherwise the placeholder
`<principal>_unknown_<unix seconds>`.  `recordCommand` only reads the table:
the table is the same after the authorize handler, its caller, has run. -/
theorem recordCommand_record (order : List Nat) (now₁ now₂ : Int) (sessions : GoMap Session)
    (username command : String) (allowed : Bool)
    (hids : ∀ e ∈ sessions.entries, e.1 ≠ "") :
    (∃ sid : String,
      recordCommand order now₁ now₂ sessions username command allowed =
        .insertCommand sid command now₂ allowed ∧
      ((∃ e ∈ sessions.entries, e.2.Username = username ∧ e.2.Active = true) →
        ∃ e ∈ sessions.entries, e.1 = sid ∧ e.2.Username = username ∧ e.2.Active = true) ∧
      ((∀ e ∈ sessions.entries, ¬ (e.2.Username = username ∧ e.2.Active = true)) →
        sid = username ++ "_unknown_" ++ toString (time.Unix now₁))) ∧
    ∀ (tbl : Char → Char) (order₁ : List Nat) (body : Option AuthorRequest),
      (AuthorHandler.Handle tbl order₁ order now₁ now₂ sessions body).sessions = sessions := by
  refine ⟨?_, fun tbl order₁ body =>
    AuthorHandler_Handle_sessions tbl order₁ order now₁ now₂ sessions body⟩
  cases hfind : (rangeOrder order sessions.entries).find?
      (fun e => decide (e.2.Username = username) && e.2.Active) with
  | none =>
    refine ⟨username ++ "_unknown_" ++ toString (time.Unix now₁), ?_, ?_, fun _ => rfl⟩
    · simp only [recordCommand, findActiveSession, hfind, if_true]
    · rintro ⟨e, he, hu, ha⟩
      rw [List.find?_eq_none] at hfind
      have := hfind e ((mem_rangeOrder order _ e).2 he)
      simp [hu, ha] at this
  | some x =>
    have hx : x ∈ sessions.entries :=
      (mem_rangeOrder order _ x).1 (List.mem_of_find?_eq_some hfind)
    have hpx := List.find?_some hfind
    simp only [Bool.and_eq_true, decide_eq_true_eq] at hpx
    refine ⟨x.1, ?_, fun _ => ⟨x, hx, rfl, hpx.1, hpx.2⟩, ?_⟩
    · simp only [recordCommand, findActiveSession, hfind, if_neg (hids x hx)]
    · intro hnone
      exact absurd hpx (hnone x hx)

/-- Witness for C17: "bob" has the active session "bob_7"; "carol" has none. -/
theorem recordCommand_record_witness :
    recordCommand [] 9000000000 9000000001
      (AList.singleton "bob_7"
        { ID := "bob_7", Username := "bob", ClientIP := "unknown", Roles := ["viewer"],
          StartTime := 7000000000, Commands := [], Active := true })
      "bob" "show version" true = .insertCommand "bob_7" "show version" 9000000001 true ∧
    recordCommand [] 9000000000 9000000001
      (AList.singleton "bob_7"
        { ID := "bob_7", Username := "bob", ClientIP := "unknown", Roles := ["viewer"],
          StartTime := 7000000000, Commands := [], Active := true })
      "carol" "reload" false =
        .insertCommand "carol_unknown_9" "reload" 9000000001 false ∧
    ∃ sid : String,
      recordCommand [] 9000000000 9000000001
        (AList.singleton "bob_7"
          { ID := "bob_7", Username := "bob", ClientIP := "unknown", Roles := ["viewer"],
            StartTime := 7000000000, Commands := [], Active := true })
        "bob" "show version" true = .insertCommand sid "show version" 9000000001 true :=
  ⟨rfl, rfl,
    (recordCommand_record [] 9000000000 9000000001
      (AList.singleton "bob_7"
        { ID := "bob_7", Username := "bob", ClientIP := "unknown", Roles := ["viewer"],
          StartTime := 7000000000, Commands := [], Active := true })
      "bob" "show version" true (by decide)).1.imp (fun _ h => h.1)⟩

end tacacs_tacquito

/-! ## Privilege levels -/

namespace zitadel

/-- C18. `GetPrivilegeLevel` is total and deterministic: every role list has
exactly one result, and that result is 0, 1 or 15. -/
theorem GetPrivilegeLevel_total_deterministic (tbl : Char → Char) (roles : List String) :
    ∃! level : Int,
      GetPrivilegeLevel tbl roles = level ∧ (level = 0 ∨ level = 1 ∨ level = 15) := by
  refine ⟨GetPrivilegeLevel tbl roles, ⟨rfl, GetPrivilegeLevel_mem tbl roles⟩, ?_⟩
  intro level hlevel
  exact hlevel.1.symm

end zitadel

namespace zitadel

theorem GetPrivilegeLevel_of_ascii (tbl : Char → Char) (roles : List String)
    (h : ∀ role ∈ roles, ∀ c ∈ role.data, c.toNat ≤ 127) :
    GetPrivilegeLevel tbl roles = GetPrivilegeLevel id roles := by
  induction roles with
  | nil => rfl
  | cons role rest ih =>
    rw [GetPrivilegeLevel_cons, GetPrivilegeLevel_cons,
      ToLower_of_ascii tbl role (h role (List.mem_cons_self role rest)),
      ih (fun r hr => h r (List.mem_cons_of_mem role hr))]

theorem IsAuthorized_of_ascii (tbl : Char → Char) (roles : List String) (command : String)
    (hroles : ∀ role ∈ roles, ∀ c ∈ role.data, c.toNat ≤ 127)
    (hcommand : ∀ c ∈ command.data, c.toNat ≤ 127) :
    IsAuthorized tbl roles command = IsAuthorized id roles command := by
  unfold IsAuthorized
  rw [GetPrivilegeLevel_of_ascii tbl roles hroles, ToLower_of_ascii tbl command hcommand]

/-- C21. The privilege level depends on the order of the roles, not only on
their set: `["admin", "viewer"]` and `["viewer", "admin"]` are permutations of
each other, `GetPrivilegeLevel` gives 15 for the first and 0 for the second,
and `IsAuthorized` allows "configure terminal" for the first and denies it for
the second.  Both lists are results of `extractRolesFromToken` for one and the
same project-roles claim, visited in the two possible orders. -/
theorem GetPrivilegeLevel_depends_on_order (tbl : Char → Char) :
    (["admin", "viewer"] : List String).Perm ["viewer", "admin"] ∧
    GetPrivilegeLevel tbl ["admin", "viewer"] = 15 ∧
    GetPrivilegeLevel tbl ["viewer", "admin"] = 0 ∧
    IsAuthorized tbl ["admin", "viewer"] "configure terminal" = true ∧
    IsAuthorized tbl ["viewer", "admin"] "configure terminal" = false ∧
    extractRolesFromToken
      { authenticateWithPassword := fun _ _ => .error "unused"
        getUserInfo := fun _ => .error "unused"
        ParseUnverified := fun _ =>
          some { projectRoles := some ["admin", "viewer"], roles := none } }
      "token" = ["admin", "viewer"] ∧
    extractRolesFromToken
      { authenticateWithPassword := fun _ _ => .error "unused"
        getUserInfo := fun _ => .error "unused"
        ParseUnverified := fun _ =>
          some { projectRoles := some ["viewer", "admin"], roles := none } }
      "token" = ["viewer", "admin"] := by
  refine ⟨List.Perm.swap _ _ _, ?_, ?_, ?_, ?_, rfl, rfl⟩
  · rw [GetPrivilegeLevel_of_ascii tbl _ (by decide)]
    decide
  · rw [GetPrivilegeLevel_of_ascii tbl _ (by decide)]
    decide
  · rw [IsAuthorized_of_ascii tbl _ _ (by decide) (by decide)]
    decide
  · rw [IsAuthorized_of_ascii tbl _ _ (by decide) (by decide)]
    decide

end zitadel
